import Mathlib

/-!
# Verification of the FLE linker and loader

A shallow embedding of the teaching linker (`src/student/ld.cpp`), the
in-process loader's symbol resolution (`src/base/exec.cpp`), and the
relocation-tag serializer/parser pair (`FLE_objdump` / `parse_relocation_type`).

Machine integers of the C++ source (`uint64_t`, `size_t`) are modelled as `Nat`
with explicit `% 2^w` reductions where the source truncates; `int64_t` addends
are `Int`.  Byte vectors are `List Nat`.  `std::map` becomes an association
list (lookups are by key, so iteration order matters only for `std::set` /
sorted maps, which are modelled as sorted lists).  Exceptions become
`Except String`.
-/

namespace FLE

/-- Relocation kinds, from `enum class RelocationType` in `include/fle.hpp`. -/
inductive RelocationType where
  | R_X86_64_32
  | R_X86_64_PC32
  | R_X86_64_64
  | R_X86_64_32S
  | R_X86_64_GOTPCREL
deriving DecidableEq, Repr

/-- A relocation entry (`struct Relocation`). -/
structure Relocation where
  type : RelocationType
  offset : Nat
  symbol : String
  addend : Int
deriving DecidableEq, Repr

/-- Symbol binding kinds (`enum class SymbolType`). -/
inductive SymbolType where
  | LOCAL
  | WEAK
  | GLOBAL
  | UNDEFINED
deriving DecidableEq, Repr

/-- A symbol-table entry (`struct Symbol`); `sec` is the C++ field `section`
(a Lean keyword). -/
structure Symbol where
  type : SymbolType
  sec : String
  offset : Nat
  size : Nat
  name : String
deriving DecidableEq, Repr

/-- A section body (`struct FLESection`). -/
structure FLESection where
  name : String
  data : List Nat
  relocs : List Relocation
  has_symbols : Bool
deriving DecidableEq, Repr

/-- A section header (`struct SectionHeader`); `typ` is the C++ field `type`. -/
structure SectionHeader where
  name : String
  typ : Nat
  flags : Nat
  addr : Nat
  offset : Nat
  size : Nat
deriving DecidableEq, Repr

/-- A program header (`struct ProgramHeader`). -/
structure ProgramHeader where
  name : String
  vaddr : Nat
  size : Nat
  flags : Nat
deriving DecidableEq, Repr

/-- An FLE object (`struct FLEObject`).  `sections` is the `std::map` from
section name to body, kept as an association list; the linker only accesses it
by key lookup. -/
structure FLEObject where
  name : String
  type : String
  sections : List (String × FLESection)
  symbols : List Symbol
  phdrs : List ProgramHeader
  shdrs : List SectionHeader
  members : List FLEObject
  entry : Nat
  needed : List String
  dyn_relocs : List Relocation

/-- Linker options (`struct LinkerOptions`). -/
structure LinkerOptions where
  outputFile : String
  shared : Bool
  entryPoint : String
  is_static : Bool
deriving DecidableEq, Repr

end FLE

namespace FLE

/-! ## Little-endian byte writes and reads

`write32` / `write64` mirror the bounds-checked lambdas in `FLE_ld`
(`src/student/ld.cpp`): out-of-range writes are silent no-ops, and each byte
is `(v >> 8*i) & 0xff`. -/

/-- The lambda `write32` from `FLE_ld`: store `v`'s low 32 bits little-endian at `off`,
doing nothing when `off + 4` exceeds the buffer. -/
def write32 (d : List Nat) (off : Nat) (v : Nat) : List Nat :=
  if off + 4 > d.length then d
  else ((((d.set off (v % 256)).set (off + 1) (v / 256 % 256)).set
      (off + 2) (v / 65536 % 256)).set (off + 3) (v / 16777216 % 256))

/-- The lambda `write64` from `FLE_ld`: store `v`'s low 64 bits little-endian at `off`,
doing nothing when `off + 8` exceeds the buffer. -/
def write64 (d : List Nat) (off : Nat) (v : Nat) : List Nat :=
  if off + 8 > d.length then d
  else (List.range 8).foldl (fun d i => d.set (off + i) (v / 256 ^ i % 256)) d

/-- Read 4 bytes at `off` as an unsigned little-endian 32-bit value
(out-of-range bytes read as 0). -/
def read32le (d : List Nat) (off : Nat) : Nat :=
  d.getD off 0 + 256 * d.getD (off + 1) 0 + 65536 * d.getD (off + 2) 0 +
    16777216 * d.getD (off + 3) 0

/-- Reinterpret an unsigned 32-bit value as a signed 32-bit integer. -/
def toSigned32 (v : Nat) : Int :=
  if v < 2147483648 then (v : Int) else (v : Int) - 4294967296

/-- The C++ cast chain `(uint32_t)(int32_t) v` for a 64-bit signed `v`:
reduction modulo 2^32 to a nonnegative representative. -/
def u32ofInt (v : Int) : Nat := (v % 4294967296).toNat

/-- The C++ value `(uint64_t)(S + A)`: reduction modulo 2^64. -/
def u64ofInt (v : Int) : Nat := (v % 18446744073709551616).toNat

/-! ## Archive member selection (`FLE_ld` step 0)

Inputs are split into plain objects, archives and shared libraries.  The C++
code identifies objects by pointer; the embedding assigns each base input and
each archive member a distinct numeric id in input order. -/

/-- The inputs of one link invocation, with unique ids assigned. -/
structure Partitioned where
  baseInputs : List (Nat × FLEObject)
  archives : List (List (Nat × FLEObject))
  sharedDeps : List FLEObject
deriving Inhabited

/-- Split `objects` by the `type` field exactly as the loop at the top of
`FLE_ld` does, assigning ids in traversal order. -/
def partitionInputs (objects : List FLEObject) : Partitioned :=
  let step := fun (st : Partitioned × Nat) (obj : FLEObject) =>
    let (p, ctr) := st
    if obj.type = ".ar" then
      let tagged := obj.members.enum.map (fun jm => (ctr + jm.1, jm.2))
      ({ p with archives := p.archives ++ [tagged] }, ctr + obj.members.length)
    else if obj.type = ".so" then
      ({ p with sharedDeps := p.sharedDeps ++ [obj] }, ctr)
    else
      ({ p with baseInputs := p.baseInputs ++ [(ctr, obj)] }, ctr + 1)
  (objects.foldl step (⟨[], [], []⟩, 0)).1

/-- Selection-time state: the active set, the ids of already-included archive
members (`included_members`) and the seed symbol maps (`globals_seed`,
`locals_seed`) that `collect_unresolved` consults. -/
structure SelState where
  active : List (Nat × FLEObject)
  included : List Nat
  globalsSeed : List (String × Nat)
  localsSeed : List (Nat × List (String × Nat))
deriving Inhabited

/-- Assignment `m[k] = v` of a `std::map` on an association list. -/
def updateA {α : Type} (l : List (String × α)) (k : String) (v : α) :
    List (String × α) :=
  if (List.lookup k l).isSome then
    l.map (fun p => if p.1 = k then (k, v) else p)
  else l ++ [(k, v)]

/-- Update the per-object local seed map `locals[id][name] = addr`. -/
def updLocals (l : List (Nat × List (String × Nat))) (id : Nat) (name : String)
    (addr : Nat) : List (Nat × List (String × Nat)) :=
  match List.lookup id l with
  | some m => l.map (fun p => if p.1 = id then (id, updateA m name addr) else p)
  | none => l ++ [(id, [(name, addr)])]

/-- The lambda `seed_sections` from `FLE_ld`: record every defined symbol of `obj` at
`dummy_base + offset`, locals per object, everything else in the global seed. -/
def seedOne (st : SelState) (id : Nat) (obj : FLEObject) (dummy : Nat) : SelState :=
  obj.symbols.foldl
    (fun st sym =>
      if sym.sec = "" then st
      else if sym.type = SymbolType.LOCAL then
        { st with localsSeed := updLocals st.localsSeed id sym.name (dummy + sym.offset) }
      else
        { st with globalsSeed := updateA st.globalsSeed sym.name (dummy + sym.offset) })
    st

/-- Is `name` resolvable for the object `id` under the seed maps (local of the
referring object, or any global seed)?  Mirrors the body of
`collect_unresolved`. -/
def symResolvedFor (st : SelState) (id : Nat) (name : String) : Bool :=
  (match List.lookup id st.localsSeed with
   | some m => (List.lookup name m).isSome
   | none => false) ||
  (List.lookup name st.globalsSeed).isSome

/-- Membership of `name` in `collect_unresolved(active, …)`: some active object has a relocation
to `name` that neither its locals nor the global seed resolve. -/
def isUnresolvedIn (st : SelState) (name : String) : Bool :=
  st.active.any (fun u =>
    u.2.sections.any (fun sp =>
      sp.2.relocs.any (fun r => r.symbol == name && !(symResolvedFor st u.1 r.symbol))))

/-- Truth of `!collect_unresolved(active, …).empty()`. -/
def anyUnresolved (st : SelState) : Bool :=
  st.active.any (fun u =>
    u.2.sections.any (fun sp =>
      sp.2.relocs.any (fun r => !(symResolvedFor st u.1 r.symbol))))

/-- The usefulness test of the member loop: the member defines (non-empty
section) a non-local symbol whose name is unresolved in state `st`. -/
def memberUseful (st : SelState) (m : FLEObject) : Bool :=
  m.symbols.any (fun s =>
    s.sec != "" && s.type != SymbolType.LOCAL && isUnresolvedIn st s.name)

/-- Include one archive member: extend the active set and `included_members`,
then `seed_sections(&mem, 0)`. -/
def addUnit (st : SelState) (u : Nat × FLEObject) : SelState :=
  seedOne { st with active := st.active ++ [u], included := st.included ++ [u.1] }
    u.1 u.2 0

/-- One round of the member-selection `while` loop.  The unresolved set is the
one computed at the start of the round (`st0`), but the
`included_members` test uses the growing state, exactly as in the source. -/
def selectPass (archives : List (List (Nat × FLEObject))) (st0 : SelState) : SelState :=
  archives.foldl
    (fun st ar =>
      ar.foldl
        (fun st u =>
          if u.1 ∈ st.included then st
          else if memberUseful st0 u.2 then addUnit st u
          else st)
        st)
    st0

/-- The selection `while (changed)` loop, with explicit fuel (the C++ loop
terminates because each productive round adds a member). -/
def selectLoop (archives : List (List (Nat × FLEObject))) :
    Nat → SelState → SelState
  | 0, st => st
  | fuel + 1, st =>
    if !anyUnresolved st then st
    else
      let st2 := selectPass archives st
      if st2.included.length = st.included.length then st2
      else selectLoop archives fuel st2

/-- Initial selection state: active = base inputs, all of them seeded with
dummy base 0. -/
def initSelState (baseInputs : List (Nat × FLEObject)) : SelState :=
  baseInputs.foldl (fun st u => seedOne st u.1 u.2 0)
    { active := baseInputs, included := [], globalsSeed := [], localsSeed := [] }

/-- Enough fuel to reach the loop's fixpoint: one round per member, plus one. -/
def selFuel (p : Partitioned) : Nat := (p.archives.map List.length).sum + 1

/-- The whole member-selection phase of `FLE_ld`. -/
def runSelection (p : Partitioned) : SelState :=
  selectLoop p.archives (selFuel p) (initSelState p.baseInputs)

end FLE

namespace FLE

/-! ## Layout planner (`FLE_ld` step 1) -/

/-- Kernel-evaluable character-list comparison used to embed
`std::string` equality-of-leading-part tests. -/
def isPrefixCharList : List Char → List Char → Bool
  | [], _ => true
  | _ :: _, [] => false
  | a :: as, b :: bs => if a = b then isPrefixCharList as bs else false

/-- The C++ test `n.rfind(t, 0) == 0`: `s` starts with `t`. -/
def strStarts (s t : String) : Bool := isPrefixCharList t.data s.data

/-- Kernel-evaluable lexicographic order on character lists, the embedding of
`std::string::operator<` (byte-wise comparison; identical on ASCII names). -/
def charListLt : List Char → List Char → Bool
  | [], [] => false
  | [], _ :: _ => true
  | _ :: _, [] => false
  | a :: as, b :: bs =>
    if a.toNat < b.toNat then true
    else if b.toNat < a.toNat then false
    else charListLt as bs

/-- String order used by the `std::set` / `std::map` embeddings. -/
def strLt (s t : String) : Bool := charListLt s.data t.data

/-- The lambda `cat_of` from `FLE_ld`: classify a section name by its leading component;
anything unrecognized falls back to the data segment. -/
def catOf (n : String) : String :=
  if strStarts n ".text" then "text"
  else if strStarts n ".rodata" then "rodata"
  else if strStarts n ".data" then "data"
  else if strStarts n ".bss" then "bss"
  else "data"

/-- One entry of the `pending` vector: an input section together with its
owner id, classification and offset inside its output segment. -/
structure PendingMap where
  id : Nat
  sec : FLESection
  secName : String
  shSize : Nat
  cat : String
  segOff : Nat

/-- The concatenated segment bodies plus the `pending` section list. -/
structure SegData where
  text : List Nat
  rodata : List Nat
  data : List Nat
  bss : Nat
  pending : List PendingMap

/-- The section concatenation loop of `FLE_ld`: walk the active set in order,
and each object's section headers in order; a header without a matching body
is skipped; bss advances by the header size, other categories append the body
bytes and record the pre-append segment offset. -/
def buildSegs (active : List (Nat × FLEObject)) : SegData :=
  active.foldl
    (fun sd u =>
      u.2.shdrs.foldl
        (fun sd shdr =>
          match List.lookup shdr.name u.2.sections with
          | none => sd
          | some s =>
            let cat := catOf shdr.name
            if cat = "text" then
              { sd with
                text := sd.text ++ s.data
                pending := sd.pending ++ [⟨u.1, s, shdr.name, shdr.size, cat, sd.text.length⟩] }
            else if cat = "rodata" then
              { sd with
                rodata := sd.rodata ++ s.data
                pending := sd.pending ++ [⟨u.1, s, shdr.name, shdr.size, cat, sd.rodata.length⟩] }
            else if cat = "data" then
              { sd with
                data := sd.data ++ s.data
                pending := sd.pending ++ [⟨u.1, s, shdr.name, shdr.size, cat, sd.data.length⟩] }
            else
              { sd with
                bss := sd.bss + shdr.size
                pending := sd.pending ++ [⟨u.1, s, shdr.name, shdr.size, cat, sd.bss⟩] })
        sd)
    (⟨[], [], [], 0, []⟩ : SegData)

/-- Insertion into a sorted duplicate-free string list: the embedding of
`std::set<std::string>::insert`. -/
def insertStr (s : String) : List String → List String
  | [] => [s]
  | t :: ts =>
    if strLt s t then s :: t :: ts
    else if s = t then t :: ts
    else t :: insertStr s ts

/-- The set `so_defined_globals`: names of global or weak symbols defined (non-empty
section) in any shared-library input. -/
def soDefinedGlobals (sharedDeps : List FLEObject) : List String :=
  sharedDeps.foldl
    (fun acc so =>
      so.symbols.foldl
        (fun acc sym =>
          if sym.sec ≠ "" ∧ (sym.type = SymbolType.GLOBAL ∨ sym.type = SymbolType.WEAK) then
            insertStr sym.name acc
          else acc)
        acc)
    []

/-- The pre-scan of `FLE_ld` that fills `extern_funcs`/`extern_datas`
(executable mode only; shared mode leaves both sets empty).  Note that every
`PCREL32` symbol not starting with '.' is inserted into `extern_funcs`
unconditionally; the `so_defined_globals` test guards only a second, redundant
insertion. -/
def collectExterns (pending : List PendingMap) (soDef : List String)
    (shared : Bool) : List String × List String :=
  if shared then ([], [])
  else
    pending.foldl
      (fun fd pm =>
        pm.sec.relocs.foldl
          (fun (fd : List String × List String) r =>
            if strStarts r.symbol "." then fd
            else if r.type = RelocationType.R_X86_64_PC32 then
              let f1 := insertStr r.symbol fd.1
              let f2 := if r.symbol ∈ soDef then insertStr r.symbol f1 else f1
              (f2, fd.2)
            else if r.type = RelocationType.R_X86_64_GOTPCREL then
              (fd.1, insertStr r.symbol fd.2)
            else fd)
          fd)
      ([], [])

/-- Insertion (`std::map<std::string, size_t>::emplace`) on a name-sorted association
list (no overwrite when the key exists). -/
def insertGotSorted (k : String) (v : Nat) :
    List (String × Nat) → List (String × Nat)
  | [] => [(k, v)]
  | p :: ps =>
    if strLt k p.1 then (k, v) :: p :: ps
    else if k = p.1 then p :: ps
    else p :: insertGotSorted k v ps

/-- Pair each name with its index, starting at `i`. -/
def indexFrom (i : Nat) : List String → List (String × Nat)
  | [] => []
  | s :: ss => (s, i) :: indexFrom (i + 1) ss

/-- Build `got_index`: slot indices 0,… for `extern_funcs` in set order, then
fresh `extern_datas` entries continue the numbering.  The association list is
kept sorted by name because later loops iterate the `std::map` in key order. -/
def buildGotIndex (funcs datas : List String) : List (String × Nat) :=
  (datas.foldl
    (fun (st : List (String × Nat) × Nat) s =>
      if (List.lookup s st.1).isSome then st
      else (insertGotSorted s st.2 st.1, st.2 + 1))
    (indexFrom 0 funcs, funcs.length)).1

/-- The function `align_up` from `ld.cpp`: `(x + a - 1) / a * a`. -/
def alignUp (x a : Nat) : Nat := (x + a - 1) / a * a

/-- The constant `BASE_ADDR`, the fixed executable base. -/
def BASE_ADDR : Nat := 0x400000

/-- The virtual-address layout of the output image. -/
structure Layout where
  text_base : Nat
  rodata_base : Nat
  data_base : Nat
  got_base : Nat
  bss_base : Nat
  plt_base : Nat
  textLen : Nat
  rodataLen : Nat
  dataLen : Nat
  plt_size : Nat
  got_bytes : Nat
deriving DecidableEq, Repr, Inhabited

/-- The base-address computation of `FLE_ld` (lines 163–168): text at
`BASE_ADDR`, each later segment page-aligned after the previous one, the PLT
counted inside the text segment. -/
def computeLayout (sd : SegData) (plt_size got_bytes : Nat) : Layout :=
  let text_base := BASE_ADDR
  let rodata_base := alignUp (text_base + sd.text.length + plt_size) 4096
  let data_base := alignUp (rodata_base + sd.rodata.length) 4096
  let got_base := alignUp (data_base + sd.data.length) 4096
  let bss_base := alignUp (got_base + got_bytes) 4096
  { text_base := text_base, rodata_base := rodata_base, data_base := data_base,
    got_base := got_base, bss_base := bss_base,
    plt_base := text_base + sd.text.length,
    textLen := sd.text.length, rodataLen := sd.rodata.length,
    dataLen := sd.data.length, plt_size := plt_size, got_bytes := got_bytes }

/-- One `SectionMapping`: the final virtual address of an input section. -/
structure Mapping where
  vaddr : Nat
  sec : FLESection
  id : Nat
  name : String

/-- Build the mapping list: each pending section at its segment base plus its
offset within the segment. -/
def buildMappings (pending : List PendingMap) (L : Layout) : List Mapping :=
  pending.map
    (fun pm =>
      let base :=
        if pm.cat = "text" then L.text_base
        else if pm.cat = "rodata" then L.rodata_base
        else if pm.cat = "data" then L.data_base
        else L.bss_base
      ⟨base + pm.segOff, pm.sec, pm.id, pm.secName⟩)

/-- The lambda `find_base`: the virtual address of the mapping of `(id, secname)`,
0 when it has none. -/
def findBase (mappings : List Mapping) (id : Nat) (secname : String) : Nat :=
  match mappings.find? (fun mp => mp.id == id && mp.name == secname) with
  | some mp => mp.vaddr
  | none => 0

end FLE

namespace FLE

/-! ## Symbol resolver (`FLE_ld` step 2) -/

/-- A global-table entry (`struct GlobalSym`). -/
structure GlobalSym where
  type : SymbolType
  addr : Nat
deriving DecidableEq, Repr

/-- One insertion into the global symbol table, mirroring lines 203–210 of
`ld.cpp`: first definition is recorded; global over global is a hard error;
global overwrites weak; anything else keeps the existing entry. -/
def insertGlobalSym (g : List (String × GlobalSym)) (name : String)
    (ty : SymbolType) (addr : Nat) : Except String (List (String × GlobalSym)) :=
  match List.lookup name g with
  | none => .ok (g ++ [(name, ⟨ty, addr⟩)])
  | some old =>
    if old.type = SymbolType.GLOBAL ∧ ty = SymbolType.GLOBAL then
      .error ("Multiple definition of strong symbol: " ++ name)
    else if old.type = SymbolType.WEAK ∧ ty = SymbolType.GLOBAL then
      .ok (updateA g name ⟨SymbolType.GLOBAL, addr⟩)
    else .ok g

/-- The symbol-resolution loop: walk the active set, skip reference-only
symbols (empty section) and symbols of unmapped sections (`find_base` = 0),
record locals per object and feed the rest through `insertGlobalSym`. -/
def buildSymbolTables (active : List (Nat × FLEObject)) (mappings : List Mapping) :
    Except String ((List (String × GlobalSym)) × (List (Nat × List (String × Nat)))) :=
  active.foldlM
    (fun gl u =>
      u.2.symbols.foldlM
        (fun (gl : (List (String × GlobalSym)) × (List (Nat × List (String × Nat)))) sym =>
          if sym.sec = "" then .ok gl
          else
            let base := findBase mappings u.1 sym.sec
            if base = 0 then .ok gl
            else
              let addr := base + sym.offset
              if sym.type = SymbolType.LOCAL then
                .ok (gl.1, updLocals gl.2 u.1 sym.name addr)
              else
                match insertGlobalSym gl.1 sym.name sym.type addr with
                | .error e => .error e
                | .ok g => .ok (g, gl.2))
        gl)
    ([], [])

/-- The lambda `lookup_addr`: the object's locals first, then the global table, else the
undefined-symbol error. -/
def lookupAddr (locals : List (Nat × List (String × Nat)))
    (globals : List (String × GlobalSym)) (id : Nat) (name : String) :
    Except String Nat :=
  match (List.lookup id locals).bind (fun m => List.lookup name m) with
  | some a => .ok a
  | none =>
    match List.lookup name globals with
    | some gs => .ok gs.addr
    | none => .error ("Undefined symbol: " ++ name)

/-- The lambda `is_internal`: the symbol is defined in the referring object's locals or
in the global table. -/
def isInternal (locals : List (Nat × List (String × Nat)))
    (globals : List (String × GlobalSym)) (id : Nat) (name : String) : Bool :=
  (match List.lookup id locals with
   | some m => (List.lookup name m).isSome
   | none => false) ||
  (List.lookup name globals).isSome

/-! ## Relocation engine (`FLE_ld` step 3) -/

/-- The patch-site byte offset inside the physical output
`[text | plt | rodata | data | got]`, decided by which segment's address range
contains the section's `vaddr`; bss has no file-backed bytes. -/
def patchOffset (L : Layout) (mpVaddr relocOff : Nat) : Option Nat :=
  if L.text_base ≤ mpVaddr ∧ mpVaddr < L.rodata_base then
    some ((mpVaddr - L.text_base) + relocOff)
  else if L.rodata_base ≤ mpVaddr ∧ mpVaddr < L.data_base then
    some (L.textLen + L.plt_size + (mpVaddr - L.rodata_base) + relocOff)
  else if L.data_base ≤ mpVaddr ∧ mpVaddr < L.bss_base then
    some (L.textLen + L.plt_size + L.rodataLen + (mpVaddr - L.data_base) + relocOff)
  else none

/-- The internal-symbol `switch` shared by both linking modes: ABS32/ABS32S
write the low 32 bits of `S + A`, PCREL32 writes `(int32)(S + A - P)`, ABS64
writes 64 bits of `S + A`, GOTPCREL32 is left untouched (the `default` case),
and a bss patch site (`patch = none`) is skipped. -/
def applyStaticPatch (buf : List Nat) (patch : Option Nat) (t : RelocationType)
    (S : Nat) (A : Int) (P : Nat) : List Nat :=
  match t with
  | RelocationType.R_X86_64_32 | RelocationType.R_X86_64_32S =>
    match patch with
    | some p => write32 buf p (u32ofInt ((S : Int) + A))
    | none => buf
  | RelocationType.R_X86_64_PC32 =>
    match patch with
    | some p => write32 buf p (u32ofInt ((S : Int) + A - (P : Int)))
    | none => buf
  | RelocationType.R_X86_64_64 =>
    match patch with
    | some p => write64 buf p (u64ofInt ((S : Int) + A))
    | none => buf
  | RelocationType.R_X86_64_GOTPCREL => buf

/-- Everything the per-relocation step reads but never writes. -/
structure RelocCtx where
  L : Layout
  locals : List (Nat × List (String × Nat))
  globals : List (String × GlobalSym)
  soDef : List String
  gotIndex : List (String × Nat)

/-- One executable-mode relocation: internal symbols are patched in place;
external symbols defined in a shared stub go through the PLT (PCREL32) or the
GOT (GOTPCREL32); any other external reference is the undefined-symbol error. -/
def relocStepExe (ctx : RelocCtx) (buf : List Nat) (w : Mapping × Relocation) :
    Except String (List Nat) :=
  let mp := w.1
  let r := w.2
  let A := r.addend
  let P := mp.vaddr + r.offset
  let patch := patchOffset ctx.L mp.vaddr r.offset
  if isInternal ctx.locals ctx.globals mp.id r.symbol then
    match lookupAddr ctx.locals ctx.globals mp.id r.symbol with
    | .error e => .error e
    | .ok S => .ok (applyStaticPatch buf patch r.type S A P)
  else if r.symbol ∈ ctx.soDef then
    if r.type = RelocationType.R_X86_64_PC32 then
      match List.lookup r.symbol ctx.gotIndex with
      | none => .ok buf
      | some idx =>
        let stub := ctx.L.plt_base + idx * 6
        let v := u32ofInt ((stub : Int) + A - (P : Int))
        .ok (match patch with
          | some p => write32 buf p v
          | none => buf)
    else if r.type = RelocationType.R_X86_64_GOTPCREL then
      match List.lookup r.symbol ctx.gotIndex with
      | none => .ok buf
      | some idx =>
        let slot := ctx.L.got_base + idx * 8
        let v := u32ofInt ((slot : Int) + A - (P : Int))
        .ok (match patch with
          | some p => write32 buf p v
          | none => buf)
    else .error ("Undefined symbol: " ++ r.symbol)
  else .error ("Undefined symbol: " ++ r.symbol)

/-- One shared-mode relocation: internal symbols without a shared-library
definition are patched in place; everything else becomes a dynamic relocation
at offset `P` with the original kind and addend. -/
def relocStepShared (ctx : RelocCtx) (st : List Nat × List Relocation)
    (w : Mapping × Relocation) : Except String (List Nat × List Relocation) :=
  let mp := w.1
  let r := w.2
  let A := r.addend
  let P := mp.vaddr + r.offset
  let patch := patchOffset ctx.L mp.vaddr r.offset
  if isInternal ctx.locals ctx.globals mp.id r.symbol ∧ r.symbol ∉ ctx.soDef then
    match lookupAddr ctx.locals ctx.globals mp.id r.symbol with
    | .error e => .error e
    | .ok S => .ok (applyStaticPatch st.1 patch r.type S A P, st.2)
  else
    .ok (st.1, st.2 ++ [⟨r.type, P, r.symbol, A⟩])

/-- The relocation work list: all `(mapping, relocation)` pairs in the nested
loop order of `FLE_ld`. -/
def relocWork (mappings : List Mapping) : List (Mapping × Relocation) :=
  (mappings.map (fun mp => mp.sec.relocs.map (fun r => (mp, r)))).flatten

/-- The physical output skeleton `[text | plt(0) | rodata | data | got(0)]`. -/
def initialOutput (sd : SegData) (plt_size got_bytes : Nat) : List Nat :=
  sd.text ++ List.replicate plt_size 0 ++ sd.rodata ++ sd.data ++
    List.replicate got_bytes 0

end FLE

namespace FLE

/-! ## Output assembly (`FLE_ld` step 4) -/

/-- Modelled from the spec: `generate_plt_stub` is declared in the repository
but its definition is not among the provided sources.  Per §4.3/§4.5 of the
specification each stub is the 6-byte indirect jump `FF 25 disp32` with the
32-bit displacement little-endian. -/
def genPltStub (rel : Nat) : List Nat :=
  [0xFF, 0x25, rel % 256, rel / 256 % 256, rel / 65536 % 256, rel / 16777216 % 256]

/-- Copy a 6-byte stub into the PLT slice at `off`. -/
def blit6 (plt : List Nat) (off : Nat) (stub : List Nat) : List Nat :=
  (List.range 6).foldl (fun d i => d.set (off + i) (stub.getD i 0)) plt

/-- The PLT back-fill loop: for each GOT entry (in `std::map` key order) write
the stub whose displacement is the signed distance from the stub's end to its
GOT slot; writes beyond the PLT slice (the data slots) are skipped. -/
def writePlt (plt : List Nat) (gotIndex : List (String × Nat)) (L : Layout) :
    List Nat :=
  gotIndex.foldl
    (fun plt kv =>
      let stub_addr := L.plt_base + kv.2 * 6
      let got_slot := L.got_base + kv.2 * 8
      let rel := u32ofInt ((got_slot : Int) - ((stub_addr : Int) + 6))
      let off := kv.2 * 6
      if off + 6 ≤ plt.length then blit6 plt off (genPltStub rel) else plt)
    plt

/-- The exported-symbol loop shared by both output modes: every defined
global/weak symbol of the active set, re-expressed as an offset inside its
output segment.  (This loop's category fallback is bss, unlike `cat_of`.) -/
def exportSymbols (active : List (Nat × FLEObject)) (mappings : List Mapping)
    (L : Layout) : List Symbol :=
  active.foldl
    (fun acc u =>
      u.2.symbols.foldl
        (fun (acc : List Symbol) sym =>
          if sym.sec = "" then acc
          else if ¬(sym.type = SymbolType.GLOBAL ∨ sym.type = SymbolType.WEAK) then acc
          else
            let base := findBase mappings u.1 sym.sec
            if base = 0 then acc
            else
              let cat :=
                if strStarts sym.sec ".text" then "text"
                else if strStarts sym.sec ".rodata" then "rodata"
                else if strStarts sym.sec ".data" then "data"
                else "bss"
              let out_sec :=
                if cat = "text" then ".text"
                else if cat = "rodata" then ".rodata"
                else if cat = "data" then ".data"
                else ".bss"
              let out_base :=
                if cat = "text" then L.text_base
                else if cat = "rodata" then L.rodata_base
                else if cat = "data" then L.data_base
                else L.bss_base
              acc ++ [⟨sym.type, out_sec, base + sym.offset - out_base, sym.size, sym.name⟩])
        acc)
    []

/-- The program headers pushed by `FLE_ld`: text (R|X), rodata (R), data
(R|W), got (R|W, only when non-empty) and bss (R|W). -/
def buildPhdrs (L : Layout) (bssSize : Nat) : List ProgramHeader :=
  [⟨".text", L.text_base, L.textLen + L.plt_size, 5⟩,
   ⟨".rodata", L.rodata_base, L.rodataLen, 4⟩,
   ⟨".data", L.data_base, L.dataLen, 6⟩] ++
  (if L.got_bytes ≠ 0 then [⟨".got", L.got_base, L.got_bytes, 6⟩] else []) ++
  [⟨".bss", L.bss_base, bssSize, 6⟩]

/-- The output sections: patched text with the PLT appended, patched rodata,
the patched tail as `.data`, the (never patched) `.got` zero block when
present, and a zeroed `.bss`. -/
def buildOutSections (sd : SegData) (L : Layout) (gotIndex : List (String × Nat))
    (buf : List Nat) : List (String × FLESection) :=
  let text_patched := buf.take L.textLen
  let plt_patched := (buf.drop L.textLen).take L.plt_size
  let rodata_patched := ((buf.drop (L.textLen + L.plt_size)).take L.rodataLen)
  let data_patched := buf.drop (L.textLen + L.plt_size + L.rodataLen)
  let plt_filled := writePlt plt_patched gotIndex L
  let text_with_plt := text_patched ++ (if L.plt_size ≠ 0 then plt_filled else [])
  [(".text", ⟨".text", text_with_plt, [], false⟩),
   (".rodata", ⟨".rodata", rodata_patched, [], false⟩),
   (".data", ⟨".data", data_patched, [], false⟩)] ++
  (if L.got_bytes ≠ 0 then
    [(".got", ⟨".got", List.replicate L.got_bytes 0, [], false⟩)] else []) ++
  [(".bss", ⟨".bss", List.replicate sd.bss 0, [], false⟩)]

/-- The per-slot ABS64 dynamic relocations emitted for an executable:
one per GOT entry, at the slot's virtual address, addend zero. -/
def exeDynRelocs (gotIndex : List (String × Nat)) (L : Layout) : List Relocation :=
  gotIndex.map (fun kv => ⟨RelocationType.R_X86_64_64, L.got_base + kv.2 * 8, kv.1, 0⟩)

/-- The `needed` list: the names of the shared-library inputs. -/
def neededOf (sharedDeps : List FLEObject) : List String :=
  (sharedDeps.filter (fun so => so.name ≠ "")).map (fun so => so.name)

/-- The entry name: `options.entryPoint` with `"_start"` as the default. -/
def entryName (options : LinkerOptions) : String :=
  if options.entryPoint = "" then "_start" else options.entryPoint

/-! ## The linker pipeline -/

/-- Stage 0 of `FLE_ld`: input partitioning. -/
def linkPartition (objects : List FLEObject) : Partitioned :=
  partitionInputs objects

/-- Stage 0': archive member selection. -/
def linkSel (objects : List FLEObject) : SelState :=
  runSelection (linkPartition objects)

/-- Stage 1: section concatenation over the selected active set. -/
def linkSegData (objects : List FLEObject) : SegData :=
  buildSegs (linkSel objects).active

/-- The shared-library-defined global names of one invocation. -/
def linkSoDef (objects : List FLEObject) : List String :=
  soDefinedGlobals (linkPartition objects).sharedDeps

/-- The `extern_funcs` / `extern_datas` sets of one invocation. -/
def linkExterns (objects : List FLEObject) (options : LinkerOptions) :
    List String × List String :=
  collectExterns (linkSegData objects).pending (linkSoDef objects) options.shared

/-- The GOT slot assignment of one invocation. -/
def linkGotIndex (objects : List FLEObject) (options : LinkerOptions) :
    List (String × Nat) :=
  buildGotIndex (linkExterns objects options).1 (linkExterns objects options).2

/-- The layout of one invocation (PLT size 6 bytes per extern function, GOT
8 bytes per slot, both zero in shared mode). -/
def linkLayout (objects : List FLEObject) (options : LinkerOptions) : Layout :=
  computeLayout (linkSegData objects)
    (if options.shared then 0 else (linkExterns objects options).1.length * 6)
    (if options.shared then 0 else (linkGotIndex objects options).length * 8)

/-- The section mappings of one invocation. -/
def linkMappings (objects : List FLEObject) (options : LinkerOptions) : List Mapping :=
  buildMappings (linkSegData objects).pending (linkLayout objects options)

/-- Stage 2: the global/local symbol tables of one invocation. -/
def linkGlobals (objects : List FLEObject) (options : LinkerOptions) :
    Except String ((List (String × GlobalSym)) × (List (Nat × List (String × Nat)))) :=
  buildSymbolTables (linkSel objects).active (linkMappings objects options)

/-- The relocation context of one invocation. -/
def linkCtx (objects : List FLEObject) (options : LinkerOptions)
    (gl : (List (String × GlobalSym)) × (List (Nat × List (String × Nat)))) : RelocCtx :=
  ⟨linkLayout objects options, gl.2, gl.1, linkSoDef objects,
    linkGotIndex objects options⟩

/-- The output-file name rule. -/
def outNameOf (options : LinkerOptions) : String :=
  if options.outputFile = "" then (if options.shared then "lib.so" else "a.out")
  else options.outputFile

/-- Stage 3 state for one invocation: the patch work list. -/
def linkWork (objects : List FLEObject) (options : LinkerOptions) :
    List (Mapping × Relocation) :=
  relocWork (linkMappings objects options)

/-- The initial output buffer of one invocation. -/
def linkBuf0 (objects : List FLEObject) (options : LinkerOptions) : List Nat :=
  initialOutput (linkSegData objects) (linkLayout objects options).plt_size
    (linkLayout objects options).got_bytes

/-- The executable-mode relocation loop of one invocation. -/
def runExe (objects : List FLEObject) (options : LinkerOptions)
    (gl : (List (String × GlobalSym)) × (List (Nat × List (String × Nat)))) :
    Except String (List Nat) :=
  (linkWork objects options).foldlM (relocStepExe (linkCtx objects options gl))
    (linkBuf0 objects options)

/-- The shared-mode relocation loop of one invocation. -/
def runShared (objects : List FLEObject) (options : LinkerOptions)
    (gl : (List (String × GlobalSym)) × (List (Nat × List (String × Nat)))) :
    Except String (List Nat × List Relocation) :=
  (linkWork objects options).foldlM (relocStepShared (linkCtx objects options gl))
    (linkBuf0 objects options, [])

/-- The executable output object, assembled from the patched buffer. -/
def assembleExe (objects : List FLEObject) (options : LinkerOptions)
    (gl : (List (String × GlobalSym)) × (List (Nat × List (String × Nat))))
    (buf : List Nat) : FLEObject :=
  { name := outNameOf options, type := ".exe",
    sections := buildOutSections (linkSegData objects) (linkLayout objects options)
      (linkGotIndex objects options) buf,
    symbols := exportSymbols (linkSel objects).active (linkMappings objects options)
      (linkLayout objects options),
    phdrs := buildPhdrs (linkLayout objects options) (linkSegData objects).bss,
    shdrs := [], members := [],
    entry :=
      (match List.lookup (entryName options) gl.1 with
       | some gs => gs.addr
       | none => 0),
    needed := neededOf (linkPartition objects).sharedDeps,
    dyn_relocs := exeDynRelocs (linkGotIndex objects options) (linkLayout objects options) }

/-- The shared-library output object. -/
def assembleShared (objects : List FLEObject) (options : LinkerOptions)
    (bufdyn : List Nat × List Relocation) : FLEObject :=
  { name := outNameOf options, type := ".so",
    sections := buildOutSections (linkSegData objects) (linkLayout objects options)
      (linkGotIndex objects options) bufdyn.1,
    symbols := exportSymbols (linkSel objects).active (linkMappings objects options)
      (linkLayout objects options),
    phdrs := buildPhdrs (linkLayout objects options) (linkSegData objects).bss,
    shdrs := [], members := [],
    entry := 0,
    needed := neededOf (linkPartition objects).sharedDeps,
    dyn_relocs := bufdyn.2 }

/-- The full linker, `FLE_ld`. -/
def FLE_ld (objects : List FLEObject) (options : LinkerOptions) :
    Except String FLEObject :=
  match linkGlobals objects options with
  | .error e => .error e
  | .ok gl =>
    if options.shared then
      match runShared objects options gl with
      | .error e => .error e
      | .ok bufdyn => .ok (assembleShared objects options bufdyn)
    else
      match runExe objects options gl with
      | .error e => .error e
      | .ok buf => .ok (assembleExe objects options gl buf)

end FLE

namespace FLE

/-! ## The specification's selection semantics (for comparison)

§4.2 of the specification says: "for each member not yet included, include it
iff it defines at least one non-local symbol in `U`; on inclusion, add it to
active and **recompute `U`**".  The variant below follows those words: the
usefulness test always consults the current state, so `U` is up to date after
every inclusion. -/

/-- One selection round under the specification's recompute-on-inclusion
rule. -/
def selectPassFresh (archives : List (List (Nat × FLEObject))) (st0 : SelState) :
    SelState :=
  archives.foldl
    (fun st ar =>
      ar.foldl
        (fun st u =>
          if u.1 ∈ st.included then st
          else if memberUseful st u.2 then addUnit st u
          else st)
        st)
    st0

/-- The selection loop under the specification's recompute-on-inclusion
rule. -/
def selectLoopFresh (archives : List (List (Nat × FLEObject))) :
    Nat → SelState → SelState
  | 0, st => st
  | fuel + 1, st =>
    if !anyUnresolved st then st
    else
      let st2 := selectPassFresh archives st
      if st2.included.length = st.included.length then st2
      else selectLoopFresh archives fuel st2

/-- Whole-phase selection under the specification's rule. -/
def runSelectionFresh (p : Partitioned) : SelState :=
  selectLoopFresh p.archives (selFuel p) (initSelState p.baseInputs)

/-! ## The in-process loader (`src/base/exec.cpp`)

Only the symbolic part of the loader is embedded: module lists, symbol
resolution across modules, and the resolution checks performed while applying
relocations.  The raw-memory side (mmap, byte stores through pointers,
mprotect) has no counterpart in a shallow embedding and is elided; a
relocation application is modelled by the `resolve_symbol` call it performs,
which is the only way the phase can fail. -/

/-- The loader's `struct LoadedModule` from `exec.cpp`. -/
structure LoadedModule where
  name : String
  obj : FLEObject
  load_base : Nat
  section_addrs : List (String × Nat)

/-- The loader's `resolve_symbol`: scan modules in list order and, inside a module, its
symbol table in order; return `section_addr + offset` of the first global or
weak entry with the requested name whose section is mapped. -/
def resolveSymbol (mods : List LoadedModule) (name : String) : Option Nat :=
  mods.findSome?
    (fun mod =>
      mod.obj.symbols.findSome?
        (fun sym =>
          if sym.name = name ∧
              (sym.type = SymbolType.GLOBAL ∨ sym.type = SymbolType.WEAK) then
            match List.lookup sym.sec mod.section_addrs with
            | some a => some (a + sym.offset)
            | none => none
          else none))

/-- The specification's description of the lookup: flatten the loaded modules
into (module, symbol) pairs in load order and take the first global-or-weak
definition of the name that has a runtime address. -/
def firstGlobalWeakDef (mods : List LoadedModule) (name : String) : Option Nat :=
  match ((mods.map (fun m => m.obj.symbols.map (fun s => (m, s)))).flatten).find?
      (fun p => p.2.name == name &&
        (p.2.type == SymbolType.GLOBAL || p.2.type == SymbolType.WEAK) &&
        (List.lookup p.2.sec p.1.section_addrs).isSome) with
  | some p => (List.lookup p.2.sec p.1.section_addrs).map (fun a => a + p.2.offset)
  | none => none

/-- Every relocation the loader's phase 2 tries to resolve: each module's
dynamic relocations, then the static relocations of its loaded sections. -/
def loaderWork (mods : List LoadedModule) : List Relocation :=
  (mods.map
    (fun mod =>
      mod.obj.dyn_relocs ++
        ((mod.obj.sections.filter
            (fun sp => (List.lookup sp.1 mod.section_addrs).isSome)).map
          (fun sp => sp.2.relocs)).flatten)).flatten

/-- The resolution obligations of the relocation phase: the first relocation
whose symbol no module defines raises `Symbol not found`. -/
def relocCheck (mods : List LoadedModule) : Except String Unit :=
  (loaderWork mods).foldlM
    (fun _ r =>
      match resolveSymbol mods r.symbol with
      | some _ => Except.ok ()
      | none => Except.error ("Symbol not found: " ++ r.symbol))
    ()

/-- The tail of `FLE_exec` after loading: the module list is the main executable followed
by its dependencies in first-encounter order; the entry point is invoked only
after every relocation resolved. -/
def FLE_exec_model (main : LoadedModule) (deps : List LoadedModule) :
    Except String Nat :=
  match relocCheck (main :: deps) with
  | .error e => .error e
  | .ok _ => .ok main.obj.entry

/-! ## Relocation tags: serializer (`FLE_objdump`) vs parser (`main.cpp`) -/

/-- The serializer's `type_to_tag` from `format_reloc` in `FLE_objdump`: the on-disk tag of a
static or dynamic relocation. -/
def typeToTag (t : RelocationType) (dynamic : Bool) : String :=
  match t with
  | RelocationType.R_X86_64_PC32 => if dynamic then ".dynrel" else ".rel"
  | RelocationType.R_X86_64_64 => if dynamic then ".dynabs64" else ".abs64"
  | RelocationType.R_X86_64_32 => if dynamic then ".dynabs32" else ".abs"
  | RelocationType.R_X86_64_32S => if dynamic then ".dynabs32" else ".abs32s"
  | RelocationType.R_X86_64_GOTPCREL => if dynamic then ".dyngotpcrel" else ".gotpcrel"

/-- The parser's `parse_relocation_type` from `main.cpp`: the tag body accepted inside a
`❓:` line (the regex group without the leading dot); anything else throws. -/
def parseRelocationType (s : String) : Option RelocationType :=
  if s = "rel" then some RelocationType.R_X86_64_PC32
  else if s = "abs64" then some RelocationType.R_X86_64_64
  else if s = "abs" then some RelocationType.R_X86_64_32
  else if s = "abs32s" then some RelocationType.R_X86_64_32S
  else if s = "gotpcrel" then some RelocationType.R_X86_64_GOTPCREL
  else none

/-- The relocation-line regex of `parse_fle_from_json` recognizes exactly the
five static tags: `\.(rel|abs64|abs|abs32s|gotpcrel)\(...\)`. -/
def relocTagRecognized (tagWithDot : String) : Bool :=
  tagWithDot ∈ [".rel", ".abs64", ".abs", ".abs32s", ".gotpcrel"]

end FLE

namespace FLE

/-! ## Concrete objects used to instantiate the theorems -/

/-- A one-byte `ret` text section. -/
def secRet : FLESection := ⟨".text", [0xC3], [], true⟩

/-- A minimal input: one object defining `_start` at `.text+0`. -/
def objStart : FLEObject :=
  { name := "a.o", type := ".obj", sections := [(".text", secRet)],
    symbols := [⟨SymbolType.GLOBAL, ".text", 0, 1, "_start"⟩],
    phdrs := [], shdrs := [⟨".text", 1, 6, 0, 0, 1⟩], members := [],
    entry := 0, needed := [], dyn_relocs := [] }

/-- A shared-library stub exporting `printf`. -/
def stubPrintf : FLEObject :=
  { name := "libc.fso", type := ".so",
    sections := [(".text", secRet)],
    symbols := [⟨SymbolType.GLOBAL, ".text", 0, 1, "printf"⟩],
    phdrs := [], shdrs := [⟨".text", 1, 6, 0, 0, 1⟩], members := [],
    entry := 0, needed := [], dyn_relocs := [] }

/-- An object whose `call` carries a PCREL32 against the shared `printf`. -/
def objCallPrintf : FLEObject :=
  { name := "m.o", type := ".obj",
    sections := [(".text", ⟨".text", [0xE8, 0, 0, 0, 0, 0xC3],
      [⟨RelocationType.R_X86_64_PC32, 1, "printf", -4⟩], true⟩)],
    symbols := [⟨SymbolType.GLOBAL, ".text", 0, 6, "_start"⟩],
    phdrs := [], shdrs := [⟨".text", 1, 6, 0, 0, 6⟩], members := [],
    entry := 0, needed := [], dyn_relocs := [] }

/-- An object with two PCREL32 calls: one to the internally defined `foo`,
one to the shared `printf`. -/
def objInternalCall : FLEObject :=
  { name := "i.o", type := ".obj",
    sections := [(".text", ⟨".text", [0xE8, 0, 0, 0, 0, 0xE8, 0, 0, 0, 0, 0xC3, 0xC3],
      [⟨RelocationType.R_X86_64_PC32, 1, "foo", -4⟩,
       ⟨RelocationType.R_X86_64_PC32, 6, "printf", -4⟩], true⟩)],
    symbols := [⟨SymbolType.GLOBAL, ".text", 0, 10, "_start"⟩,
                ⟨SymbolType.GLOBAL, ".text", 11, 1, "foo"⟩],
    phdrs := [], shdrs := [⟨".text", 1, 6, 0, 0, 12⟩], members := [],
    entry := 0, needed := [], dyn_relocs := [] }

/-- An object whose only relocation is ABS64 against the shared `printf`. -/
def objAbs64Printf : FLEObject :=
  { name := "b.o", type := ".obj",
    sections := [(".data", ⟨".data", [0, 0, 0, 0, 0, 0, 0, 0],
      [⟨RelocationType.R_X86_64_64, 0, "printf", 0⟩], true⟩)],
    symbols := [⟨SymbolType.GLOBAL, ".data", 0, 8, "_start"⟩],
    phdrs := [], shdrs := [⟨".data", 1, 3, 0, 0, 8⟩], members := [],
    entry := 0, needed := [], dyn_relocs := [] }

/-- An object referencing `foo`, left unresolved until an archive supplies it. -/
def objNeedsFoo : FLEObject :=
  { name := "r.o", type := ".obj",
    sections := [(".text", ⟨".text", [0xE8, 0, 0, 0, 0],
      [⟨RelocationType.R_X86_64_PC32, 1, "foo", -4⟩], true⟩)],
    symbols := [⟨SymbolType.GLOBAL, ".text", 0, 5, "_start"⟩],
    phdrs := [], shdrs := [⟨".text", 1, 6, 0, 0, 5⟩], members := [],
    entry := 0, needed := [], dyn_relocs := [] }

/-- Archive member defining `foo` as a global. -/
def memFooGlobal : FLEObject :=
  { name := "m1.o", type := ".obj", sections := [(".text", secRet)],
    symbols := [⟨SymbolType.GLOBAL, ".text", 0, 1, "foo"⟩],
    phdrs := [], shdrs := [⟨".text", 1, 6, 0, 0, 1⟩], members := [],
    entry := 0, needed := [], dyn_relocs := [] }

/-- Archive member defining `foo` as weak. -/
def memFooWeak : FLEObject :=
  { name := "m2.o", type := ".obj", sections := [(".text", secRet)],
    symbols := [⟨SymbolType.WEAK, ".text", 0, 1, "foo"⟩],
    phdrs := [], shdrs := [⟨".text", 1, 6, 0, 0, 1⟩], members := [],
    entry := 0, needed := [], dyn_relocs := [] }

/-- An archive holding the two `foo` members. -/
def arcFoo : FLEObject :=
  { name := "libfoo.fa", type := ".ar", sections := [], symbols := [],
    phdrs := [], shdrs := [], members := [memFooGlobal, memFooWeak],
    entry := 0, needed := [], dyn_relocs := [] }

/-- Default executable-mode options. -/
def optsExe : LinkerOptions := ⟨"", false, "", false⟩

end FLE

namespace FLE

/-! ## Byte-level lemmas -/

theorem getD_set_self (l : List Nat) (i a : Nat) (h : i < l.length) :
    (l.set i a).getD i 0 = a := by
  simp [List.getD_eq_getElem?_getD, List.getElem?_set, h]

theorem getD_set_other (l : List Nat) (i j a : Nat) (h : i ≠ j) :
    (l.set i a).getD j 0 = l.getD j 0 := by
  simp [List.getD_eq_getElem?_getD, List.getElem?_set, h]

theorem u32ofInt_lt (v : Int) : u32ofInt v < 4294967296 := by
  unfold u32ofInt; omega

/-- An in-range 32-bit store reads back unchanged. -/
theorem read32le_write32 (d : List Nat) (off v : Nat)
    (hin : off + 4 ≤ d.length) (hv : v < 4294967296) :
    read32le (write32 d off v) off = v := by
  unfold write32
  rw [if_neg (by omega)]
  unfold read32le
  rw [getD_set_other _ _ _ _ (by omega), getD_set_other _ _ _ _ (by omega),
      getD_set_other _ _ _ _ (by omega), getD_set_self _ _ _ (by omega)]
  rw [getD_set_other _ _ _ _ (by omega), getD_set_other _ _ _ _ (by omega),
      getD_set_self _ _ _ (by (try simp only [List.length_set]); omega)]
  rw [getD_set_other _ _ _ _ (by omega),
      getD_set_self _ _ _ (by (try simp only [List.length_set]); omega)]
  rw [getD_set_self _ _ _ (by (try simp only [List.length_set]); omega)]
  omega

/-- Decoding the reduced representative recovers any value that fits in a
signed 32-bit integer. -/
theorem toSigned32_u32ofInt (v : Int) (h1 : -2147483648 ≤ v)
    (h2 : v < 2147483648) : toSigned32 (u32ofInt v) = v := by
  unfold toSigned32 u32ofInt
  split <;> omega

end FLE

namespace FLE

/-- C2: for every PCREL32 relocation whose symbol is internal (resolved to
address `S`), the executable-mode relocation step writes at the patch site the
4 little-endian bytes of `(int32)(S + A − P)` with `P = vaddr + offset`, and
whenever `S + A − P` fits a signed 32-bit integer, reading those 4 bytes back
as a signed 32-bit value yields exactly `S + A − P`. -/
theorem pcrel32_internal_patch (ctx : RelocCtx) (buf : List Nat)
    (mp : Mapping) (r : Relocation) (S p : Nat)
    (hty : r.type = RelocationType.R_X86_64_PC32)
    (hint : isInternal ctx.locals ctx.globals mp.id r.symbol = true)
    (hS : lookupAddr ctx.locals ctx.globals mp.id r.symbol = .ok S)
    (hp : patchOffset ctx.L mp.vaddr r.offset = some p)
    (hin : p + 4 ≤ buf.length) :
    relocStepExe ctx buf (mp, r) =
      .ok (write32 buf p (u32ofInt ((S : Int) + r.addend - ((mp.vaddr + r.offset : Nat) : Int)))) ∧
    read32le (write32 buf p
        (u32ofInt ((S : Int) + r.addend - ((mp.vaddr + r.offset : Nat) : Int)))) p =
      u32ofInt ((S : Int) + r.addend - ((mp.vaddr + r.offset : Nat) : Int)) ∧
    (-2147483648 ≤ (S : Int) + r.addend - ((mp.vaddr + r.offset : Nat) : Int) →
      (S : Int) + r.addend - ((mp.vaddr + r.offset : Nat) : Int) < 2147483648 →
      toSigned32 (read32le (write32 buf p
          (u32ofInt ((S : Int) + r.addend - ((mp.vaddr + r.offset : Nat) : Int)))) p) =
        (S : Int) + r.addend - ((mp.vaddr + r.offset : Nat) : Int)) := by
  have hrd := read32le_write32 buf p _ hin
    (u32ofInt_lt ((S : Int) + r.addend - ((mp.vaddr + r.offset : Nat) : Int)))
  refine ⟨?_, hrd, ?_⟩
  · simp only [relocStepExe, hint, if_true, hS, hty, hp, applyStaticPatch]
  · intro h1 h2
    rw [hrd, toSigned32_u32ofInt _ h1 h2]

/-- Witness for `pcrel32_internal_patch`: the `call printf` patch of the
two-object example, checked end to end at concrete addresses. -/
theorem pcrel32_internal_patch_witness :
    toSigned32 (read32le (write32 [0xE8, 0, 0, 0, 0, 0xC3] 1
        (u32ofInt ((4194309 : Nat) + (-4 : Int) - (((4194304 + 1 : Nat) : Nat) : Int)))) 1) =
      (4194309 : Nat) + (-4 : Int) - (((4194304 + 1 : Nat) : Nat) : Int) := by
  have h := pcrel32_internal_patch
    ⟨computeLayout ⟨[0xE8, 0, 0, 0, 0, 0xC3], [], [], 0, []⟩ 0 0, [],
      [("printf", ⟨SymbolType.GLOBAL, 4194309⟩)], [], []⟩
    [0xE8, 0, 0, 0, 0, 0xC3]
    ⟨4194304, ⟨".text", [0xE8, 0, 0, 0, 0, 0xC3],
      [⟨RelocationType.R_X86_64_PC32, 1, "printf", -4⟩], true⟩, 0, ".text"⟩
    ⟨RelocationType.R_X86_64_PC32, 1, "printf", -4⟩
    4194309 1 rfl (by decide) rfl (by decide) (by decide)
  exact h.2.2 (by decide) (by decide)

end FLE

namespace FLE

/-- Looking up `k` after the map half of `updateA`. -/
theorem lookup_map_update {α : Type} (t : List (String × α)) (k : String) (v : α) :
    List.lookup k (t.map (fun p => if p.1 = k then (k, v) else p)) =
      if (List.lookup k t).isSome then some v else none := by
  induction t with
  | nil => simp [List.lookup]
  | cons p t ih =>
    obtain ⟨pk, pv⟩ := p
    by_cases hp : pk = k
    · subst hp
      rw [List.map_cons, if_pos (show (pk, pv).1 = pk from rfl)]
      simp [List.lookup]
    · have hb : (k == pk) = false := by simp [Ne.symm hp]
      simp only [List.map_cons]
      rw [if_neg (show ¬((pk, pv).1 = k) from hp)]
      simp only [List.lookup, hb]
      exact ih

/-- Looking up `k` after appending a fresh binding. -/
theorem lookup_append_new {α : Type} (t : List (String × α)) (k : String) (v : α)
    (h : ¬(List.lookup k t).isSome = true) :
    List.lookup k (t ++ [(k, v)]) = some v := by
  induction t with
  | nil => simp [List.lookup]
  | cons p t ih =>
    obtain ⟨pk, pv⟩ := p
    have hb : (k == pk) = false := by
      by_contra hc
      rw [Bool.not_eq_false, beq_iff_eq] at hc
      simp [List.lookup, hc] at h
    simp only [List.cons_append, List.lookup, hb]
    exact ih (by simpa [List.lookup, hb] using h)

/-- After `updateA l k v`, looking up `k` yields `v`. -/
theorem lookup_updateA {α : Type} (l : List (String × α)) (k : String) (v : α) :
    List.lookup k (updateA l k v) = some v := by
  unfold updateA
  split
  case isTrue h => rw [lookup_map_update, if_pos h]
  case isFalse h => exact lookup_append_new l k v h

/-- C3: the insertion rules of the linker's global symbol table.  In order:
a first definition is recorded as given; a global definition replaces a
previously recorded weak one (and the table then maps the name to the global's
address); a second global definition of a name already bound globally aborts
with the duplicate-strong-symbol error; a weak definition never replaces an
existing global; a duplicate weak keeps the first. -/
theorem global_table_rules (g : List (String × GlobalSym)) (name : String)
    (ty : SymbolType) (a b : Nat) :
    (List.lookup name g = none →
      insertGlobalSym g name ty a = .ok (g ++ [(name, ⟨ty, a⟩)])) ∧
    (∀ x, List.lookup name g = some ⟨SymbolType.WEAK, x⟩ →
      insertGlobalSym g name SymbolType.GLOBAL b =
        .ok (updateA g name ⟨SymbolType.GLOBAL, b⟩) ∧
      List.lookup name (updateA g name ⟨SymbolType.GLOBAL, b⟩) =
        some ⟨SymbolType.GLOBAL, b⟩) ∧
    (∀ x, List.lookup name g = some ⟨SymbolType.GLOBAL, x⟩ →
      insertGlobalSym g name SymbolType.GLOBAL b =
        .error ("Multiple definition of strong symbol: " ++ name)) ∧
    (∀ x, List.lookup name g = some ⟨SymbolType.GLOBAL, x⟩ →
      insertGlobalSym g name SymbolType.WEAK b = .ok g) ∧
    (∀ x, List.lookup name g = some ⟨SymbolType.WEAK, x⟩ →
      insertGlobalSym g name SymbolType.WEAK b = .ok g) := by
  refine ⟨fun h => ?_, fun x h => ⟨?_, lookup_updateA g name _⟩,
    fun x h => ?_, fun x h => ?_, fun x h => ?_⟩
  · unfold insertGlobalSym; rw [h]
  · unfold insertGlobalSym; rw [h]; simp
  · unfold insertGlobalSym; rw [h]; simp
  · unfold insertGlobalSym; rw [h]; simp
  · unfold insertGlobalSym; rw [h]; simp

/-- Witness for `global_table_rules`: the weak-then-global override at a
concrete table. -/
theorem global_table_rules_witness :
    List.lookup "x" [("x", (⟨SymbolType.WEAK, 4194304⟩ : GlobalSym))] =
      some (⟨SymbolType.WEAK, 4194304⟩ : GlobalSym) ∧
    insertGlobalSym [("x", (⟨SymbolType.WEAK, 4194304⟩ : GlobalSym))] "x"
        SymbolType.GLOBAL 4198400 =
      .ok (updateA [("x", (⟨SymbolType.WEAK, 4194304⟩ : GlobalSym))] "x"
        (⟨SymbolType.GLOBAL, 4198400⟩ : GlobalSym)) ∧
    List.lookup "x" (updateA [("x", (⟨SymbolType.WEAK, 4194304⟩ : GlobalSym))] "x"
        (⟨SymbolType.GLOBAL, 4198400⟩ : GlobalSym)) =
      some (⟨SymbolType.GLOBAL, 4198400⟩ : GlobalSym) := by
  have h := (global_table_rules [("x", (⟨SymbolType.WEAK, 4194304⟩ : GlobalSym))] "x"
    SymbolType.WEAK 0 4198400).2.1 4194304 (by decide)
  exact ⟨by decide, h.1, h.2⟩

end FLE

namespace FLE

/-- Page alignment really aligns. -/
theorem dvd_alignUp_4096 (x : Nat) : 4096 ∣ alignUp x 4096 := by
  unfold alignUp; omega

/-- A successful link in executable mode decomposes into its stages. -/
theorem FLE_ld_ok_exe (objects : List FLEObject) (options : LinkerOptions)
    (out : FLEObject) (hs : options.shared = false)
    (h : FLE_ld objects options = .ok out) :
    ∃ gl buf, linkGlobals objects options = .ok gl ∧
      runExe objects options gl = .ok buf ∧
      out = assembleExe objects options gl buf := by
  unfold FLE_ld at h
  cases hg : linkGlobals objects options with
  | error e => rw [hg] at h; cases h
  | ok gl =>
    rw [hg, hs] at h
    simp only [Bool.false_eq_true, if_false] at h
    cases hr : runExe objects options gl with
    | error e => rw [hr] at h; cases h
    | ok buf =>
      rw [hr] at h
      injection h with h
      exact ⟨gl, buf, rfl, hr, h.symm⟩

/-- A successful link in shared mode decomposes into its stages. -/
theorem FLE_ld_ok_shared (objects : List FLEObject) (options : LinkerOptions)
    (out : FLEObject) (hs : options.shared = true)
    (h : FLE_ld objects options = .ok out) :
    ∃ gl bufdyn, linkGlobals objects options = .ok gl ∧
      runShared objects options gl = .ok bufdyn ∧
      out = assembleShared objects options bufdyn := by
  unfold FLE_ld at h
  cases hg : linkGlobals objects options with
  | error e => rw [hg] at h; cases h
  | ok gl =>
    rw [hg, hs] at h
    simp only [if_true] at h
    cases hr : runShared objects options gl with
    | error e => rw [hr] at h; cases h
    | ok bufdyn =>
      rw [hr] at h
      injection h with h
      exact ⟨gl, bufdyn, rfl, hr, h.symm⟩

/-- Whatever the mode, a successful link's program headers are the five (or
four, without a GOT) headers at the computed bases. -/
theorem FLE_ld_ok_phdrs (objects : List FLEObject) (options : LinkerOptions)
    (out : FLEObject) (h : FLE_ld objects options = .ok out) :
    out.phdrs = buildPhdrs (linkLayout objects options) (linkSegData objects).bss := by
  by_cases hs : options.shared
  · obtain ⟨gl, bufdyn, _, _, hout⟩ := FLE_ld_ok_shared objects options out hs h
    rw [hout]; rfl
  · obtain ⟨gl, buf, _, _, hout⟩ :=
      FLE_ld_ok_exe objects options out (Bool.not_eq_true _ ▸ hs) h
    rw [hout]; rfl

end FLE

namespace FLE

/-- C4: for every link invocation the segment bases satisfy
`text_base = 0x400000`, `rodata_base = ⌈text_base + |text| + plt⌉`,
`data_base = ⌈rodata_base + |rodata|⌉`, `got_base = ⌈data_base + |data|⌉`,
`bss_base = ⌈got_base + got⌉` (page alignment 4096), and consequently every
program header of the produced object other than `.text` sits on a 4096-byte
boundary. -/
theorem linker_segment_bases (objects : List FLEObject) (options : LinkerOptions)
    (out : FLEObject) (h : FLE_ld objects options = .ok out) :
    (linkLayout objects options).text_base = 0x400000 ∧
    (linkLayout objects options).rodata_base =
      alignUp ((linkLayout objects options).text_base +
        (linkLayout objects options).textLen +
        (linkLayout objects options).plt_size) 4096 ∧
    (linkLayout objects options).data_base =
      alignUp ((linkLayout objects options).rodata_base +
        (linkLayout objects options).rodataLen) 4096 ∧
    (linkLayout objects options).got_base =
      alignUp ((linkLayout objects options).data_base +
        (linkLayout objects options).dataLen) 4096 ∧
    (linkLayout objects options).bss_base =
      alignUp ((linkLayout objects options).got_base +
        (linkLayout objects options).got_bytes) 4096 ∧
    (∀ ph ∈ out.phdrs, ph.name ≠ ".text" → 4096 ∣ ph.vaddr) := by
  refine ⟨rfl, rfl, rfl, rfl, rfl, ?_⟩
  intro ph hmem hname
  rw [FLE_ld_ok_phdrs objects options out h] at hmem
  unfold buildPhdrs at hmem
  simp only [List.mem_append, List.mem_cons, List.mem_singleton] at hmem
  rcases hmem with ((h1 | h2 | h3 | hfalse) | hgot) | h5
  · exact absurd (by rw [h1]) hname
  · rw [h2]; exact dvd_alignUp_4096 _
  · rw [h3]; exact dvd_alignUp_4096 _
  · cases hfalse
  · by_cases hg : (linkLayout objects options).got_bytes ≠ 0
    · rw [if_pos hg] at hgot
      simp only [List.mem_singleton] at hgot
      rw [hgot]; exact dvd_alignUp_4096 _
    · rw [if_neg hg] at hgot
      cases hgot
  · rcases h5 with h5 | h5
    · rw [h5]; exact dvd_alignUp_4096 _
    · cases h5

end FLE

namespace FLE

/-- Witness for `linker_segment_bases`: the single-object link succeeds and
its non-text headers are page-aligned. -/
theorem linker_segment_bases_witness :
    ∃ out, FLE_ld [objStart] optsExe = .ok out ∧
      (∀ ph ∈ out.phdrs, ph.name ≠ ".text" → 4096 ∣ ph.vaddr) := by
  cases hout : FLE_ld [objStart] optsExe with
  | error e =>
    have hok : (FLE_ld [objStart] optsExe).isOk = true := by rfl
    rw [hout] at hok
    cases hok
  | ok out =>
    exact ⟨out, rfl, (linker_segment_bases [objStart] optsExe out hout).2.2.2.2.2⟩

end FLE

namespace FLE

/-- The entry symbol (default `_start`) has no binding in the link's global
symbol table. -/
def entryUndefined (objects : List FLEObject) (options : LinkerOptions) : Bool :=
  match linkGlobals objects options with
  | .ok gl => (List.lookup (entryName options) gl.1).isNone
  | .error _ => false

/-- C10: in executable mode a missing entry symbol is not an error: when the
entry name has no global/weak binding, linking still succeeds whenever it
would otherwise, and the produced executable's `entry` field is 0. -/
theorem missing_entry_zero (objects : List FLEObject) (options : LinkerOptions)
    (out : FLEObject) (hs : options.shared = false)
    (hmiss : entryUndefined objects options = true)
    (h : FLE_ld objects options = .ok out) :
    out.entry = 0 := by
  obtain ⟨gl, buf, hg, hr, hout⟩ := FLE_ld_ok_exe objects options out hs h
  unfold entryUndefined at hmiss
  rw [hg] at hmiss
  have hnone : (List.lookup (entryName options) gl.1).isNone = true := hmiss
  rw [hout]
  show (match List.lookup (entryName options) gl.1 with
        | some gs => gs.addr
        | none => 0) = 0
  cases hlk : List.lookup (entryName options) gl.1 with
  | none => rfl
  | some gs => rw [hlk] at hnone; cases hnone

/-- An object defining only `main`: no `_start` anywhere. -/
def objMainOnly : FLEObject :=
  { name := "m.o", type := ".obj", sections := [(".text", secRet)],
    symbols := [⟨SymbolType.GLOBAL, ".text", 0, 1, "main"⟩],
    phdrs := [], shdrs := [⟨".text", 1, 6, 0, 0, 1⟩], members := [],
    entry := 0, needed := [], dyn_relocs := [] }

/-- Witness for `missing_entry_zero`: linking an object without `_start`
succeeds and yields entry 0. -/
theorem missing_entry_zero_witness :
    entryUndefined [objMainOnly] optsExe = true ∧
    ∃ out, FLE_ld [objMainOnly] optsExe = .ok out ∧ out.entry = 0 := by
  refine ⟨by rfl, ?_⟩
  cases hout : FLE_ld [objMainOnly] optsExe with
  | error e =>
    have hok : (FLE_ld [objMainOnly] optsExe).isOk = true := by rfl
    rw [hout] at hok
    cases hok
  | ok out =>
    exact ⟨out, rfl, missing_entry_zero [objMainOnly] optsExe out rfl (by rfl) hout⟩

end FLE

namespace FLE

/-! ## Order facts about the sorted-set embedding -/

theorem char_toNat_inj {a b : Char} (h : a.toNat = b.toNat) : a = b :=
  Char.ext (UInt32.eq_of_val_eq (Fin.eq_of_val_eq h))

theorem charListLt_irrefl : ∀ l, charListLt l l = false
  | [] => rfl
  | a :: as => by
    unfold charListLt
    simp [charListLt_irrefl as]

theorem charListLt_trans : ∀ a b c, charListLt a b = true →
    charListLt b c = true → charListLt a c = true
  | [], [], _, h, _ => by cases h
  | [], _ :: _, [], _, h => by cases h
  | [], _ :: _, _ :: _, _, _ => rfl
  | _ :: _, [], _, h, _ => by cases h
  | _ :: _, _ :: _, [], _, h => by cases h
  | a :: as, b :: bs, c :: cs, h1, h2 => by
    unfold charListLt at h1 h2 ⊢
    by_cases hab : a.toNat < b.toNat
    · by_cases hbc : b.toNat < c.toNat
      · rw [if_pos (by omega : a.toNat < c.toNat)]
      · by_cases hcb : c.toNat < b.toNat
        · rw [if_neg hbc, if_pos hcb] at h2; cases h2
        · rw [if_pos (by omega : a.toNat < c.toNat)]
    · by_cases hba : b.toNat < a.toNat
      · rw [if_neg hab, if_pos hba] at h1; cases h1
      · rw [if_neg hab, if_neg hba] at h1
        by_cases hbc : b.toNat < c.toNat
        · rw [if_pos (by omega : a.toNat < c.toNat)]
        · by_cases hcb : c.toNat < b.toNat
          · rw [if_neg hbc, if_pos hcb] at h2; cases h2
          · rw [if_neg hbc, if_neg hcb] at h2
            rw [if_neg (by omega : ¬a.toNat < c.toNat),
                if_neg (by omega : ¬c.toNat < a.toNat)]
            exact charListLt_trans as bs cs h1 h2

theorem charListLt_total : ∀ a b, a ≠ b →
    charListLt a b = true ∨ charListLt b a = true
  | [], [], h => absurd rfl h
  | [], _ :: _, _ => Or.inl rfl
  | _ :: _, [], _ => Or.inr rfl
  | a :: as, b :: bs, h => by
    by_cases hab : a.toNat < b.toNat
    · left; unfold charListLt; rw [if_pos hab]
    · by_cases hba : b.toNat < a.toNat
      · right; unfold charListLt; rw [if_pos hba]
      · have heq : a = b := char_toNat_inj (by omega)
        subst heq
        have hne : as ≠ bs := fun he => h (by rw [he])
        rcases charListLt_total as bs hne with h1 | h1
        · left; unfold charListLt
          rw [if_neg (by omega), if_neg (by omega)]; exact h1
        · right; unfold charListLt
          rw [if_neg (by omega), if_neg (by omega)]; exact h1

theorem strLt_trans {a b c : String} (h1 : strLt a b = true)
    (h2 : strLt b c = true) : strLt a c = true :=
  charListLt_trans a.data b.data c.data h1 h2

theorem strLt_ne {a b : String} (h : strLt a b = true) : a ≠ b := by
  intro he
  subst he
  rw [show strLt a a = charListLt a.data a.data from rfl, charListLt_irrefl] at h
  cases h

theorem strLt_total {a b : String} (h : a ≠ b) :
    strLt a b = true ∨ strLt b a = true :=
  charListLt_total a.data b.data (fun he => h (String.ext he))

/-- The sortedness invariant of the `std::set<std::string>` embedding. -/
def strsSorted (l : List String) : Prop :=
  l.Pairwise (fun a b => strLt a b = true)

/-- The sortedness invariant of the `std::map<std::string, size_t>`
embedding. -/
def keysSorted (l : List (String × Nat)) : Prop :=
  l.Pairwise (fun p q => strLt p.1 q.1 = true)

theorem mem_insertStr {a s : String} : ∀ {l : List String},
    a ∈ insertStr s l → a = s ∨ a ∈ l := by
  intro l
  induction l with
  | nil => intro h; simpa [insertStr] using h
  | cons t ts ih =>
    intro h
    unfold insertStr at h
    by_cases h1 : strLt s t = true
    · rw [if_pos h1] at h
      rcases List.mem_cons.mp h with rfl | h
      · exact Or.inl rfl
      · exact Or.inr h
    · rw [if_neg h1] at h
      by_cases h2 : s = t
      · rw [if_pos h2] at h; exact Or.inr h
      · rw [if_neg h2] at h
        rcases List.mem_cons.mp h with rfl | h
        · exact Or.inr (List.mem_cons_self _ _)
        · rcases ih h with rfl | h
          · exact Or.inl rfl
          · exact Or.inr (List.mem_cons_of_mem _ h)

theorem insertStr_sorted : ∀ (s : String) (l : List String),
    strsSorted l → strsSorted (insertStr s l)
  | s, [], _ => List.pairwise_singleton _ _
  | s, t :: ts, h => by
    rcases List.pairwise_cons.mp h with ⟨ht, hts⟩
    unfold insertStr
    by_cases h1 : strLt s t = true
    · rw [if_pos h1]
      refine List.Pairwise.cons ?_ h
      intro u hu
      rcases List.mem_cons.mp hu with rfl | hu
      · exact h1
      · exact strLt_trans h1 (ht u hu)
    · rw [if_neg h1]
      by_cases h2 : s = t
      · rw [if_pos h2]; exact h
      · rw [if_neg h2]
        refine List.Pairwise.cons ?_ (insertStr_sorted s ts hts)
        intro u hu
        rcases mem_insertStr hu with rfl | hu
        · rcases strLt_total h2 with h3 | h3
          · exact absurd h3 h1
          · exact h3
        · exact ht u hu

theorem strsSorted_nodup {l : List String} (h : strsSorted l) : l.Nodup :=
  h.imp (fun hab => strLt_ne hab)

theorem mem_keys_insertGotSorted {a : String × Nat} {k : String} {v : Nat} :
    ∀ {l : List (String × Nat)}, a ∈ insertGotSorted k v l →
      a = (k, v) ∨ a ∈ l := by
  intro l
  induction l with
  | nil => intro h; simpa [insertGotSorted] using h
  | cons p ps ih =>
    intro h
    unfold insertGotSorted at h
    by_cases h1 : strLt k p.1 = true
    · rw [if_pos h1] at h
      rcases List.mem_cons.mp h with rfl | h
      · exact Or.inl rfl
      · exact Or.inr h
    · rw [if_neg h1] at h
      by_cases h2 : k = p.1
      · rw [if_pos h2] at h; exact Or.inr h
      · rw [if_neg h2] at h
        rcases List.mem_cons.mp h with rfl | h
        · exact Or.inr (List.mem_cons_self _ _)
        · rcases ih h with rfl | h
          · exact Or.inl rfl
          · exact Or.inr (List.mem_cons_of_mem _ h)

theorem insertGotSorted_sorted : ∀ (k : String) (v : Nat)
    (l : List (String × Nat)), keysSorted l → keysSorted (insertGotSorted k v l)
  | k, v, [], _ => List.pairwise_singleton _ _
  | k, v, p :: ps, h => by
    rcases List.pairwise_cons.mp h with ⟨hp, hps⟩
    unfold insertGotSorted
    by_cases h1 : strLt k p.1 = true
    · rw [if_pos h1]
      refine List.Pairwise.cons ?_ h
      intro u hu
      rcases List.mem_cons.mp hu with rfl | hu
      · exact h1
      · exact strLt_trans h1 (hp u hu)
    · rw [if_neg h1]
      by_cases h2 : k = p.1
      · rw [if_pos h2]; exact h
      · rw [if_neg h2]
        refine List.Pairwise.cons ?_ (insertGotSorted_sorted k v ps hps)
        intro u hu
        rcases mem_keys_insertGotSorted hu with rfl | hu
        · rcases strLt_total h2 with h3 | h3
          · exact absurd h3 h1
          · exact h3
        · exact hp u hu

/-- A fold preserves any invariant its step preserves. -/
theorem foldl_preserve {α β : Type} (P : β → Prop) (f : β → α → β)
    (hf : ∀ b a, P b → P (f b a)) : ∀ (l : List α) (b : β), P b → P (l.foldl f b)
  | [], _, hb => hb
  | a :: l, b, hb => foldl_preserve P f hf l (f b a) (hf b a hb)

end FLE

namespace FLE

/-- Both extern sets produced by the pre-scan are sorted. -/
theorem collectExterns_sorted (pending : List PendingMap) (soDef : List String)
    (shared : Bool) :
    strsSorted (collectExterns pending soDef shared).1 ∧
    strsSorted (collectExterns pending soDef shared).2 := by
  unfold collectExterns
  by_cases hs : shared
  · rw [if_pos hs]; exact ⟨List.Pairwise.nil, List.Pairwise.nil⟩
  · rw [if_neg hs]
    have base : strsSorted ([] : List String) ∧ strsSorted ([] : List String) :=
      ⟨List.Pairwise.nil, List.Pairwise.nil⟩
    refine foldl_preserve (fun fd => strsSorted fd.1 ∧ strsSorted fd.2) _
      (fun fd pm hfd => ?_) pending ([], []) base
    refine foldl_preserve (fun fd => strsSorted fd.1 ∧ strsSorted fd.2) _
      (fun fd r hfd2 => ?_) pm.sec.relocs fd hfd
    by_cases h1 : strStarts r.symbol "." = true
    · simpa [h1] using hfd2
    · simp only [Bool.not_eq_true] at h1
      rw [h1]
      by_cases h2 : r.type = RelocationType.R_X86_64_PC32
      · simp only [if_false, h2, if_true]
        by_cases h3 : r.symbol ∈ soDef
        · simp only [h3, if_true]
          exact ⟨insertStr_sorted _ _ (insertStr_sorted _ _ hfd2.1), hfd2.2⟩
        · simp only [h3, if_false]
          exact ⟨insertStr_sorted _ _ hfd2.1, hfd2.2⟩
      · rw [if_neg h2]
        by_cases h4 : r.type = RelocationType.R_X86_64_GOTPCREL
        · rw [if_pos h4]
          exact ⟨hfd2.1, insertStr_sorted _ _ hfd2.2⟩
        · rw [if_neg h4]
          exact hfd2

/-- Keys of `indexFrom` members come from the name list. -/
theorem mem_indexFrom {p : String × Nat} :
    ∀ {i : Nat} {l : List String}, p ∈ indexFrom i l → p.1 ∈ l := by
  intro i l
  induction l generalizing i with
  | nil => intro h; simp [indexFrom] at h
  | cons s ss ih =>
    intro h
    unfold indexFrom at h
    rcases List.mem_cons.mp h with rfl | h
    · exact List.mem_cons_self _ _
    · exact List.mem_cons_of_mem _ (ih h)

/-- Indexing a sorted name list yields a key-sorted association list. -/
theorem indexFrom_sorted : ∀ (l : List String) (i : Nat),
    strsSorted l → keysSorted (indexFrom i l)
  | [], _, _ => List.Pairwise.nil
  | s :: ss, i, h => by
    rcases List.pairwise_cons.mp h with ⟨hs, hss⟩
    refine List.Pairwise.cons ?_ (indexFrom_sorted ss (i + 1) hss)
    intro u hu
    exact hs u.1 (mem_indexFrom hu)

/-- The GOT index is key-sorted whenever the extern-function set is sorted. -/
theorem buildGotIndex_sorted (funcs datas : List String)
    (hf : strsSorted funcs) : keysSorted (buildGotIndex funcs datas) := by
  unfold buildGotIndex
  have base : keysSorted (indexFrom 0 funcs) := indexFrom_sorted funcs 0 hf
  refine foldl_preserve (fun st => keysSorted st.1)
    (fun st s =>
      if (List.lookup s st.1).isSome then st
      else (insertGotSorted s st.2 st.1, st.2 + 1))
    (fun st s hst => ?_) datas (indexFrom 0 funcs, funcs.length) base
  by_cases h1 : (List.lookup s st.1).isSome = true
  · simp only [if_pos h1]; exact hst
  · simp only [if_neg h1]
    exact insertGotSorted_sorted s st.2 st.1 hst

/-- The GOT slot assignment of any invocation has pairwise-distinct symbol
names. -/
theorem linkGotIndex_nodup (objects : List FLEObject) (options : LinkerOptions) :
    ((linkGotIndex objects options).map Prod.fst).Nodup := by
  have hs : keysSorted (linkGotIndex objects options) :=
    buildGotIndex_sorted _ _ (collectExterns_sorted _ _ _).1
  have hne : (linkGotIndex objects options).Pairwise (fun p q => p.1 ≠ q.1) :=
    hs.imp (fun h => strLt_ne h)
  exact List.pairwise_map.mpr hne

end FLE

namespace FLE

/-- C5: in executable mode the dynamic relocations of the output are exactly
one ABS64 entry per assigned GOT slot — at offset `got_base + 8·index`, naming
the slot's symbol, with addend zero — and nothing else; distinct slots carry
distinct symbol names. -/
theorem exe_dynamic_relocations (objects : List FLEObject)
    (options : LinkerOptions) (out : FLEObject) (hs : options.shared = false)
    (h : FLE_ld objects options = .ok out) :
    out.dyn_relocs = (linkGotIndex objects options).map
      (fun kv => (⟨RelocationType.R_X86_64_64,
        (linkLayout objects options).got_base + kv.2 * 8, kv.1, 0⟩ : Relocation)) ∧
    (out.dyn_relocs.map (fun r => r.symbol)).Nodup := by
  obtain ⟨gl, buf, hg, hr, hout⟩ := FLE_ld_ok_exe objects options out hs h
  subst hout
  refine ⟨rfl, ?_⟩
  show ((exeDynRelocs (linkGotIndex objects options)
    (linkLayout objects options)).map (fun r => r.symbol)).Nodup
  have hmap : ((exeDynRelocs (linkGotIndex objects options)
      (linkLayout objects options)).map (fun r => r.symbol)) =
      (linkGotIndex objects options).map Prod.fst := by
    unfold exeDynRelocs
    rw [List.map_map]
    rfl
  rw [hmap]
  exact linkGotIndex_nodup objects options

/-- Witness for `exe_dynamic_relocations`: the `printf` example yields exactly
one ABS64 dynamic relocation at the GOT slot 0x401000. -/
theorem exe_dynamic_relocations_witness :
    optsExe.shared = false ∧
    ∃ out, FLE_ld [objCallPrintf, stubPrintf] optsExe = .ok out ∧
      out.dyn_relocs =
        [⟨RelocationType.R_X86_64_64, 4198400, "printf", 0⟩] := by
  refine ⟨rfl, ?_⟩
  cases hout : FLE_ld [objCallPrintf, stubPrintf] optsExe with
  | error e =>
    have hok : (FLE_ld [objCallPrintf, stubPrintf] optsExe).isOk = true := by rfl
    rw [hout] at hok
    cases hok
  | ok out =>
    refine ⟨out, rfl, ?_⟩
    have h := (exe_dynamic_relocations [objCallPrintf, stubPrintf] optsExe out
      rfl hout).1
    rw [h]
    rfl

end FLE

namespace FLE

/-- The names bound in the link's global symbol table (empty on error). -/
def linkGlobalNames (objects : List FLEObject) (options : LinkerOptions) :
    List String :=
  match linkGlobals objects options with
  | .ok gl => gl.1.map Prod.fst
  | .error _ => []

/-- C1 (code bug, evaluated at the failing input): `foo` is defined by an
active object (it is in the global table) and by no shared stub, so by the
specification it is not an external function; yet the pre-scan places every
PCREL32-referenced symbol in `extern_funcs`, so `foo` receives GOT slot 0 and
a 6-byte PLT stub alongside the genuinely external `printf` — `plt_size` is
12, not 6. -/
theorem extern_funcs_include_internal :
    linkGotIndex [objInternalCall, stubPrintf] optsExe =
      [("foo", 0), ("printf", 1)] ∧
    (linkLayout [objInternalCall, stubPrintf] optsExe).plt_size = 12 ∧
    (linkGlobalNames [objInternalCall, stubPrintf] optsExe).contains "foo" = true ∧
    (linkSoDef [objInternalCall, stubPrintf]).contains "foo" = false :=
  ⟨rfl, rfl, rfl, rfl⟩

end FLE

namespace FLE

/-- C6 (code bug, evaluated on the tag alphabet): the serializer emits every
dynamic relocation with a `.dyn*` tag, but the parser's relocation pattern
recognizes only the five static tags and `parse_relocation_type` maps only
those five; so parsing the serialized form of any object with a non-empty
`dyn_relocs` list aborts with `Invalid relocation` instead of reproducing the
object.  (Every static tag, by contrast, is recognized.) -/
theorem dyn_reloc_tags_unparseable :
    (∀ t : RelocationType, relocTagRecognized (typeToTag t true) = false) ∧
    (∀ t : RelocationType, relocTagRecognized (typeToTag t false) = true) ∧
    typeToTag RelocationType.R_X86_64_64 true = ".dynabs64" ∧
    parseRelocationType "dynabs64" = none := by
  refine ⟨?_, ?_, rfl, rfl⟩ <;> (intro t; cases t <;> rfl)

end FLE

namespace FLE

/-- A fold over `Except` whose step fails exactly on `bad` elements succeeds
iff no element is bad, and any error names the first bad element. -/
theorem foldlM_except_ok_iff {σ α : Type} (f : σ → α → Except String σ)
    (bad : α → Bool) (msg : α → String)
    (hf : ∀ s a, (bad a = true → f s a = .error (msg a)) ∧
      (bad a = false → ∃ s2, f s a = .ok s2)) :
    ∀ (l : List α) (s : σ),
      ((∃ s2, l.foldlM f s = .ok s2) ↔ ∀ a ∈ l, bad a = false) ∧
      (∀ e, l.foldlM f s = .error e →
        ∃ a ∈ l, bad a = true ∧ e = msg a)
  | [], s => by
    constructor
    · constructor
      · intro _ a ha; cases ha
      · intro _; exact ⟨s, rfl⟩
    · intro e he; cases he
  | a :: l, s => by
    rw [List.foldlM_cons]
    cases hbad : bad a with
    | true =>
      rw [(hf s a).1 hbad]
      constructor
      · constructor
        · intro ⟨s2, hs2⟩; cases hs2
        · intro hall
          exact absurd (hall a (List.mem_cons_self _ _)) (by rw [hbad]; simp)
      · intro e he
        injection he with he
        exact ⟨a, List.mem_cons_self _ _, hbad, he.symm⟩
    | false =>
      obtain ⟨s2, hs2⟩ := (hf s a).2 hbad
      rw [hs2]
      have ih := foldlM_except_ok_iff f bad msg hf l s2
      constructor
      · constructor
        · intro hok
          intro b hb
          rcases List.mem_cons.mp hb with rfl | hb
          · exact hbad
          · exact ih.1.mp hok b hb
        · intro hall
          exact ih.1.mpr (fun b hb => hall b (List.mem_cons_of_mem _ hb))
      · intro e he
        obtain ⟨b, hb, h1, h2⟩ := ih.2 e he
        exact ⟨b, List.mem_cons_of_mem _ hb, h1, h2⟩

/-- An internal symbol always has an address. -/
theorem lookupAddr_ok_of_internal (locals : List (Nat × List (String × Nat)))
    (globals : List (String × GlobalSym)) (id : Nat) (name : String)
    (h : isInternal locals globals id name = true) :
    ∃ a, lookupAddr locals globals id name = .ok a := by
  unfold isInternal at h
  unfold lookupAddr
  cases h1 : List.lookup id locals with
  | none =>
    rw [h1] at h
    simp only [Option.bind, Bool.false_or] at h ⊢
    cases h2 : List.lookup name globals with
    | none => rw [h2] at h; simp at h
    | some gs => exact ⟨gs.addr, rfl⟩
  | some m =>
    rw [h1] at h
    simp only [Option.bind] at h ⊢
    cases h2 : List.lookup name m with
    | none =>
      rw [h2] at h
      simp only [Option.isSome_none, Bool.false_or] at h
      cases h3 : List.lookup name globals with
      | none => rw [h3] at h; simp at h
      | some gs => exact ⟨gs.addr, rfl⟩
    | some a => exact ⟨a, rfl⟩

/-- The amended undefined-symbol condition: the relocation's symbol is not
internal, and either no shared stub defines it or its kind is neither PCREL32
nor GOTPCREL32. -/
def relocUndefined (ctx : RelocCtx) (w : Mapping × Relocation) : Bool :=
  !isInternal ctx.locals ctx.globals w.1.id w.2.symbol &&
    (!(decide (w.2.symbol ∈ ctx.soDef)) ||
      (decide (w.2.type ≠ RelocationType.R_X86_64_PC32) &&
        decide (w.2.type ≠ RelocationType.R_X86_64_GOTPCREL)))

/-- One executable-mode relocation step fails — always with the
undefined-symbol message — exactly on `relocUndefined` work items. -/
theorem relocStepExe_spec (ctx : RelocCtx) (buf : List Nat)
    (w : Mapping × Relocation) :
    (relocUndefined ctx w = true →
      relocStepExe ctx buf w = .error ("Undefined symbol: " ++ w.2.symbol)) ∧
    (relocUndefined ctx w = false →
      ∃ buf2, relocStepExe ctx buf w = .ok buf2) := by
  by_cases hint : isInternal ctx.locals ctx.globals w.1.id w.2.symbol = true
  · have hbad : relocUndefined ctx w = false := by
      unfold relocUndefined
      rw [hint]
      rfl
    obtain ⟨a, ha⟩ := lookupAddr_ok_of_internal ctx.locals ctx.globals w.1.id
      w.2.symbol hint
    refine ⟨fun hh => (by rw [hbad] at hh; cases hh), fun _ => ?_⟩
    unfold relocStepExe
    rw [if_pos hint, ha]
    exact ⟨_, rfl⟩
  · have hint2 : isInternal ctx.locals ctx.globals w.1.id w.2.symbol = false := by
      simpa using hint
    by_cases hso : w.2.symbol ∈ ctx.soDef
    · by_cases hpc : w.2.type = RelocationType.R_X86_64_PC32
      · have hbad : relocUndefined ctx w = false := by
          unfold relocUndefined
          rw [hint2, hpc]
          simp [hso]
        refine ⟨fun hh => (by rw [hbad] at hh; cases hh), fun _ => ?_⟩
        unfold relocStepExe
        rw [if_neg (by simp [hint2]), if_pos hso, if_pos hpc]
        cases List.lookup w.2.symbol ctx.gotIndex with
        | none => exact ⟨buf, rfl⟩
        | some idx => exact ⟨_, rfl⟩
      · by_cases hgp : w.2.type = RelocationType.R_X86_64_GOTPCREL
        · have hbad : relocUndefined ctx w = false := by
            unfold relocUndefined
            rw [hint2, hgp]
            simp [hso, hpc]
          refine ⟨fun hh => (by rw [hbad] at hh; cases hh), fun _ => ?_⟩
          unfold relocStepExe
          rw [if_neg (by simp [hint2]), if_pos hso, if_neg hpc, if_pos hgp]
          cases List.lookup w.2.symbol ctx.gotIndex with
          | none => exact ⟨buf, rfl⟩
          | some idx => exact ⟨_, rfl⟩
        · have hbad : relocUndefined ctx w = true := by
            unfold relocUndefined
            rw [hint2]
            simp [hso, hpc, hgp]
          refine ⟨fun _ => ?_, fun hh => (by rw [hbad] at hh; cases hh)⟩
          unfold relocStepExe
          rw [if_neg (by simp [hint2]), if_pos hso, if_neg hpc, if_neg hgp]
    · have hbad : relocUndefined ctx w = true := by
        unfold relocUndefined
        rw [hint2]
        simp [hso]
      refine ⟨fun _ => ?_, fun hh => (by rw [hbad] at hh; cases hh)⟩
      unfold relocStepExe
      rw [if_neg (by simp [hint2]), if_neg hso]

end FLE

namespace FLE

/-- C7 (amended): once the symbol tables build successfully, executable-mode
linking succeeds iff no static relocation is undefined in the amended sense
(`relocUndefined`: not internal, and either not stub-defined or of a kind
other than PCREL32/GOTPCREL32), and every failure of this phase is an
undefined-symbol error naming such a relocation's symbol.  In particular a
link with no relocations, empty archives or no shared dependencies
succeeds. -/
theorem undefined_symbol_iff (objects : List FLEObject) (options : LinkerOptions)
    (gl : (List (String × GlobalSym)) × (List (Nat × List (String × Nat))))
    (hs : options.shared = false)
    (hg : linkGlobals objects options = .ok gl) :
    ((∃ out, FLE_ld objects options = .ok out) ↔
      (∀ w ∈ linkWork objects options,
        relocUndefined (linkCtx objects options gl) w = false)) ∧
    (∀ e, FLE_ld objects options = .error e →
      ∃ w ∈ linkWork objects options,
        relocUndefined (linkCtx objects options gl) w = true ∧
        e = "Undefined symbol: " ++ w.2.symbol) := by
  have hfold := foldlM_except_ok_iff (relocStepExe (linkCtx objects options gl))
    (relocUndefined (linkCtx objects options gl))
    (fun w => "Undefined symbol: " ++ w.2.symbol)
    (fun s a => relocStepExe_spec (linkCtx objects options gl) s a)
    (linkWork objects options) (linkBuf0 objects options)
  constructor
  · constructor
    · intro ⟨out, hout⟩
      obtain ⟨gl2, buf, hg2, hr, _⟩ := FLE_ld_ok_exe objects options out hs hout
      rw [hg] at hg2
      injection hg2 with hg2
      subst hg2
      unfold runExe at hr
      exact hfold.1.mp ⟨buf, hr⟩
    · intro hall
      obtain ⟨buf, hbuf⟩ := hfold.1.mpr hall
      refine ⟨assembleExe objects options gl buf, ?_⟩
      unfold FLE_ld
      rw [hg, hs]
      simp only [Bool.false_eq_true, if_false]
      show (match runExe objects options gl with
            | .error e => Except.error e
            | .ok buf => Except.ok (assembleExe objects options gl buf)) = _
      unfold runExe
      rw [hbuf]
  · intro e he
    unfold FLE_ld at he
    rw [hg, hs] at he
    simp only [Bool.false_eq_true, if_false] at he
    cases hr : runExe objects options gl with
    | error e2 =>
      rw [hr] at he
      injection he with he
      subst he
      unfold runExe at hr
      exact hfold.2 e2 hr
    | ok buf =>
      rw [hr] at he
      cases he

/-- Counterexample to C7 as stated: the only relocation is ABS64 against
`printf`, which is defined in the shared stub — so by the claim no
undefined-symbol error may be raised — yet the link aborts with exactly that
error. -/
theorem undefined_symbol_iff_counterexample :
    FLE_ld [objAbs64Printf, stubPrintf] optsExe =
      .error ("Undefined symbol: " ++ "printf") ∧
    (linkSoDef [objAbs64Printf, stubPrintf]).contains "printf" = true :=
  ⟨rfl, rfl⟩

/-- Witness for `undefined_symbol_iff`: on the well-formed `printf` example
the equivalence applies and yields a successful link. -/
theorem undefined_symbol_iff_witness :
    optsExe.shared = false ∧
    linkGlobals [objCallPrintf, stubPrintf] optsExe =
      .ok ([("_start", ⟨SymbolType.GLOBAL, 4194304⟩)], []) ∧
    ∃ out, FLE_ld [objCallPrintf, stubPrintf] optsExe = .ok out := by
  refine ⟨rfl, rfl, ?_⟩
  exact (undefined_symbol_iff [objCallPrintf, stubPrintf] optsExe
    ([("_start", ⟨SymbolType.GLOBAL, 4194304⟩)], []) rfl rfl).1.mpr (by decide)

end FLE

namespace FLE

/-- Seeding never changes the included-member set. -/
theorem seedOne_included (st : SelState) (id : Nat) (obj : FLEObject) (d : Nat) :
    (seedOne st id obj d).included = st.included := by
  unfold seedOne
  refine foldl_preserve (fun s => s.included = st.included) _
    (fun s sym hs => ?_) obj.symbols st rfl
  by_cases h1 : sym.sec = ""
  · rw [if_pos h1]; exact hs
  · rw [if_neg h1]
    by_cases h2 : sym.type = SymbolType.LOCAL
    · rw [if_pos h2]; exact hs
    · rw [if_neg h2]; exact hs

/-- Including a member appends exactly its id. -/
theorem addUnit_included (st : SelState) (u : Nat × FLEObject) :
    (addUnit st u).included = st.included ++ [u.1] := by
  unfold addUnit
  rw [seedOne_included]

/-- The member fold of one round, characterized: relative to the round-start
usefulness test `memberUseful st0`, a member is appended exactly when its id
is outside `base` and it is useful; `D` accumulates ids added earlier in the
same round, which by distinctness never collide with the rest of the scan. -/
theorem passFold_included (st0 : SelState) :
    ∀ (l : List (Nat × FLEObject)) (st : SelState) (base D : List Nat),
      st.included = base ++ D → (∀ u ∈ l, u.1 ∉ D) →
      ((l.map Prod.fst).Nodup) →
      (l.foldl (fun st u =>
          if u.1 ∈ st.included then st
          else if memberUseful st0 u.2 then addUnit st u else st) st).included =
        st.included ++ (l.filter
          (fun u => !(decide (u.1 ∈ base)) && memberUseful st0 u.2)).map Prod.fst
  | [], st, base, D, hst, hD, hnd => by simp
  | u :: l, st, base, D, hst, hD, hnd => by
    have huD : u.1 ∉ D := hD u (List.mem_cons_self _ _)
    have hmem_iff : u.1 ∈ st.included ↔ u.1 ∈ base := by
      rw [hst, List.mem_append]
      exact ⟨fun h => h.resolve_right huD, fun h => Or.inl h⟩
    rw [List.map_cons] at hnd
    rcases List.nodup_cons.mp hnd with ⟨hu_nl, hnd_l⟩
    simp only [List.foldl_cons]
    by_cases hbase : u.1 ∈ base
    · rw [if_pos (hmem_iff.mpr hbase)]
      rw [passFold_included st0 l st base D hst
        (fun v hv => hD v (List.mem_cons_of_mem _ hv)) hnd_l]
      congr 1
      rw [List.filter_cons]
      rw [if_neg (by simp [hbase])]
    · rw [if_neg (fun hc => hbase (hmem_iff.mp hc))]
      by_cases huse : memberUseful st0 u.2 = true
      · rw [if_pos huse]
        have hst2 : (addUnit st u).included = base ++ (D ++ [u.1]) := by
          rw [addUnit_included, hst, List.append_assoc]
        have hD2 : ∀ v ∈ l, v.1 ∉ D ++ [u.1] := by
          intro v hv hvin
          rcases List.mem_append.mp hvin with h | h
          · exact hD v (List.mem_cons_of_mem _ hv) h
          · rcases List.mem_singleton.mp h with h
            exact hu_nl (h ▸ List.mem_map_of_mem Prod.fst hv)
        rw [passFold_included st0 l (addUnit st u) base (D ++ [u.1]) hst2 hD2 hnd_l]
        rw [addUnit_included, List.filter_cons, if_pos (by simp [hbase, huse])]
        simp [List.append_assoc]
      · rw [if_neg huse]
        rw [passFold_included st0 l st base D hst
          (fun v hv => hD v (List.mem_cons_of_mem _ hv)) hnd_l]
        congr 1
        rw [List.filter_cons, if_neg (by simp [huse])]

/-- C8 (amended): during one round of archive member selection, the members
added are exactly those not yet included that define a non-local symbol
unresolved at the start of the round — the unresolved set is recomputed
between rounds, not on each inclusion — appended in scan order. -/
theorem selectPass_included (archives : List (List (Nat × FLEObject)))
    (st : SelState)
    (hnd : ((archives.flatten).map Prod.fst).Nodup) :
    (selectPass archives st).included =
      st.included ++ ((archives.flatten).filter
        (fun u => !(decide (u.1 ∈ st.included)) && memberUseful st u.2)).map
        Prod.fst := by
  unfold selectPass
  rw [← List.foldl_flatten]
  exact passFold_included st archives.flatten st st.included [] (by simp)
    (fun u hu h => (List.not_mem_nil u.1) h) hnd

end FLE

namespace FLE

/-- The selection scenario: one object needing `foo`, one archive whose two
members (global `foo`, weak `foo`) both match the initially unresolved set. -/
def selScenario : Partitioned := linkPartition [objNeedsFoo, arcFoo]

/-- Its initial selection state. -/
def selScenarioInit : SelState := initSelState selScenario.baseInputs

/-- Counterexample to C8 as stated: the claim's recompute-on-inclusion
semantics (here `runSelectionFresh`, following the claim's words) pulls in
only the first `foo` member, while the linker's selection loop — which
recomputes the unresolved set only between rounds — also pulls in the second
member within the same round.  The two semantics disagree on the final
included set, so the claim's description of the loop is false of the code. -/
theorem selection_recompute_counterexample :
    (runSelection selScenario).included = [1, 2] ∧
    (runSelectionFresh selScenario).included = [1] :=
  ⟨rfl, rfl⟩

/-- Witness for `selectPass_included`: the characterization evaluated on the
`foo` archive round, where both members are appended. -/
theorem selectPass_included_witness :
    (((selScenario.archives).flatten).map Prod.fst).Nodup ∧
    (selectPass selScenario.archives selScenarioInit).included =
      selScenarioInit.included ++
        (((selScenario.archives).flatten).filter
          (fun u => !(decide (u.1 ∈ selScenarioInit.included)) &&
            memberUseful selScenarioInit u.2)).map Prod.fst := by
  refine ⟨by decide, ?_⟩
  exact selectPass_included selScenario.archives selScenarioInit (by decide)

end FLE

namespace FLE

/-- Per-module agreement of the loop translation (`findSome?`) with the
first-match description (`find?` plus address extraction). -/
theorem resolve_module_spec (mod : LoadedModule) (name : String) :
    ∀ (syms : List Symbol),
      syms.findSome? (fun sym =>
        if sym.name = name ∧
            (sym.type = SymbolType.GLOBAL ∨ sym.type = SymbolType.WEAK) then
          match List.lookup sym.sec mod.section_addrs with
          | some a => some (a + sym.offset)
          | none => none
        else none) =
      (match (syms.map (fun s => (mod, s))).find? (fun p => p.2.name == name &&
          (p.2.type == SymbolType.GLOBAL || p.2.type == SymbolType.WEAK) &&
          (List.lookup p.2.sec p.1.section_addrs).isSome) with
      | some p => (List.lookup p.2.sec p.1.section_addrs).map
          (fun a => a + p.2.offset)
      | none => none)
  | [] => rfl
  | s :: ss => by
    rw [List.findSome?_cons, List.map_cons, List.find?_cons]
    by_cases hc : s.name = name ∧
        (s.type = SymbolType.GLOBAL ∨ s.type = SymbolType.WEAK)
    · rw [if_pos hc]
      rcases hc with ⟨h1, h2⟩
      cases hlk : List.lookup s.sec mod.section_addrs with
      | some a => rcases h2 with h2 | h2 <;> simp [hlk, h1, h2]
      | none =>
        rcases h2 with h2 | h2 <;>
          · simp only [hlk, Option.isSome_none, Bool.and_false]
            exact resolve_module_spec mod name ss
    · rw [if_neg hc]
      have hpred : (s.name == name &&
          (s.type == SymbolType.GLOBAL || s.type == SymbolType.WEAK)) = false := by
        by_contra hcon
        rw [Bool.not_eq_false] at hcon
        simp only [Bool.and_eq_true, beq_iff_eq, Bool.or_eq_true] at hcon
        exact hc ⟨hcon.1, by
          rcases hcon.2 with h | h
          · exact Or.inl (by simpa using h)
          · exact Or.inr (by simpa using h)⟩
      simp only [Bool.and_eq_false_iff] at hpred
      rcases hpred with hpred | hpred
      · simp only [hpred, Bool.false_and]
        exact resolve_module_spec mod name ss
      · simp only [hpred, Bool.false_and, Bool.and_false]
        exact resolve_module_spec mod name ss

end FLE

namespace FLE

/-- C9: the loader's cross-module symbol lookup over the load-ordered module
list (the main executable first, then its dependencies in first-encounter
order) returns the runtime address of the first global or weak definition in
that order, and if any relocation's symbol has no such definition the load
fails with an error instead of reaching the entry point. -/
theorem loader_resolution (main : LoadedModule) (deps : List LoadedModule)
    (name : String) :
    resolveSymbol (main :: deps) name = firstGlobalWeakDef (main :: deps) name ∧
    ((∃ r ∈ loaderWork (main :: deps),
        resolveSymbol (main :: deps) r.symbol = none) →
      ∃ e, FLE_exec_model main deps = .error e) := by
  constructor
  · have hgen : ∀ (mods : List LoadedModule),
        resolveSymbol mods name = firstGlobalWeakDef mods name := by
      intro mods
      induction mods with
      | nil => rfl
      | cons m ms ih =>
        unfold resolveSymbol firstGlobalWeakDef
        rw [List.findSome?_cons, List.map_cons, List.flatten_cons,
          List.find?_append, resolve_module_spec m name m.obj.symbols]
        cases hf : (m.obj.symbols.map (fun s => (m, s))).find?
            (fun p => p.2.name == name &&
              (p.2.type == SymbolType.GLOBAL || p.2.type == SymbolType.WEAK) &&
              (List.lookup p.2.sec p.1.section_addrs).isSome) with
        | some p =>
          have hp := List.find?_some hf
          simp only [Bool.and_eq_true] at hp
          cases hlk : List.lookup p.2.sec p.1.section_addrs with
          | none => rw [hlk] at hp; simp at hp
          | some a => simp [hlk]
        | none =>
          simp only [Option.none_orElse]
          exact ih
    exact hgen _
  · intro hex
    have hstep : ∀ (s : Unit) (r : Relocation),
        ((resolveSymbol (main :: deps) r.symbol).isNone = true →
          (match resolveSymbol (main :: deps) r.symbol with
           | some _ => Except.ok ()
           | none => Except.error ("Symbol not found: " ++ r.symbol)) =
            Except.error ("Symbol not found: " ++ r.symbol)) ∧
        ((resolveSymbol (main :: deps) r.symbol).isNone = false →
          ∃ s2, (match resolveSymbol (main :: deps) r.symbol with
           | some _ => Except.ok ()
           | none => Except.error ("Symbol not found: " ++ r.symbol)) =
            Except.ok s2) := by
      intro s r
      cases hres : resolveSymbol (main :: deps) r.symbol with
      | none => exact ⟨fun _ => rfl, fun hh => by cases hh⟩
      | some a => exact ⟨fun hh => (by cases hh), fun _ => ⟨(), rfl⟩⟩
    have hfold := foldlM_except_ok_iff
      (fun (_ : Unit) (r : Relocation) =>
        match resolveSymbol (main :: deps) r.symbol with
        | some _ => Except.ok ()
        | none => Except.error ("Symbol not found: " ++ r.symbol))
      (fun r => (resolveSymbol (main :: deps) r.symbol).isNone)
      (fun r => "Symbol not found: " ++ r.symbol)
      hstep (loaderWork (main :: deps)) ()
    obtain ⟨r, hr, hnone⟩ := hex
    cases hchk : relocCheck (main :: deps) with
    | error e =>
      exact ⟨e, by unfold FLE_exec_model; rw [hchk]⟩
    | ok u =>
      have hall := hfold.1.mp ⟨u, by unfold relocCheck at hchk; exact hchk⟩
      have := hall r hr
      rw [hnone] at this
      cases this

end FLE

namespace FLE

/-- A loaded main module whose one dynamic relocation names a symbol defined
nowhere. -/
def objMissingDyn : FLEObject :=
  { name := "a.out", type := ".exe", sections := [(".text", secRet)],
    symbols := [⟨SymbolType.GLOBAL, ".text", 0, 1, "_start"⟩],
    phdrs := [⟨".text", 4194304, 1, 5⟩], shdrs := [], members := [],
    entry := 4194304, needed := [],
    dyn_relocs := [⟨RelocationType.R_X86_64_64, 4198400, "missing", 0⟩] }

def modMissing : LoadedModule :=
  { name := "a.out", obj := objMissingDyn, load_base := 0,
    section_addrs := [(".text", 4194304)] }

/-- Witness for `loader_resolution`: lookup agreement on `_start`, and the
fatal pre-entry failure on the unresolvable `missing`. -/
theorem loader_resolution_witness :
    resolveSymbol [modMissing] "_start" =
      firstGlobalWeakDef [modMissing] "_start" ∧
    (⟨RelocationType.R_X86_64_64, 4198400, "missing", 0⟩ : Relocation) ∈
      loaderWork [modMissing] ∧
    resolveSymbol [modMissing] "missing" = none ∧
    ∃ e, FLE_exec_model modMissing [] = .error e := by
  refine ⟨(loader_resolution modMissing [] "_start").1, by decide, rfl, ?_⟩
  exact (loader_resolution modMissing [] "missing").2
    ⟨⟨RelocationType.R_X86_64_64, 4198400, "missing", 0⟩, by decide, rfl⟩

end FLE
